import Mathlib

/-!
TruthNode — article verification and reward scoring engine

A shallow embedding of the verification/reward engine of the TruthNode
repository, together with theorems checking the natural-language
specification against it.

The embedding follows the TypeScript source:

* `MemStorage` (server storage module): JavaScript `Map`s become
  insertion-ordered association lists (`mapGet`/`mapSet` mirror
  `Map.get`/`Map.set`); the `async` methods are pure state-passing
  functions (the store is single-writer and every operation is a
  synchronous in-process sequence of awaits on in-memory structure).
* route handlers from `server/routes.ts` (`POST /api/verifications`,
  `POST /api/articles/:id/evidence`, `POST /api/articles/:id/verify-truth`,
  `POST /api/rewards/award`) become functions over `MemStorage`.
* JavaScript numbers carrying integer counts and token balances become
  `Nat`; `Math.round((positiveCount / totalCount) * 100)` becomes
  `round` on `ℚ` (for all reachable count sizes the IEEE-double
  computation agrees with exact rational round-half-up, since the
  double's relative error is far below the distance of the exact value
  to a half-integer boundary whenever it is not exactly on one, and
  exact halves are represented exactly).
* fields irrelevant to the engine (title, content, timestamps, avatars,
  passwords, ipfs hashes, …) are omitted; the external blockchain and
  WebSocket collaborators (`blockchain.awardTokens`, `broadcastEvent`)
  are out of scope per the spec and are not part of the state, so a
  `txHash` read from the blockchain simulator is modelled as `none`.
-/

namespace TruthNode

/-! ## Association-list model of a JavaScript `Map` -/

/-- Embeds `Map.get`: the value bound to `k`, if any. -/
def mapGet {α : Type} (m : List (Nat × α)) (k : Nat) : Option α :=
  (m.find? (fun p => p.1 == k)).map (·.2)

/-- Embeds `Map.set`: replace the binding for `k` in place, or append a fresh one. -/
def mapSet {α : Type} (m : List (Nat × α)) (k : Nat) (v : α) : List (Nat × α) :=
  match m with
  | [] => [(k, v)]
  | (k', v') :: rest =>
    if k' = k then (k, v) :: rest else (k', v') :: mapSet rest k v

/-! ## Data model (shared/schema.ts, engine-relevant fields) -/

/-- The `User` row (users table): engine-relevant fields. -/
structure User where
  id : Nat
  role : String
  truthTokens : Nat
  ensAddress : Option String
deriving DecidableEq, Repr

/-- The `Article` row (articles table): engine-relevant fields.  `truthScore` is the
field written by `updateArticleTruthScore`. -/
structure Article where
  id : Nat
  authorId : Nat
  status : String
  isWhistleblower : Bool
  verificationCount : Nat
  truthScore : Option Nat
deriving DecidableEq, Repr

/-- The `Evidence` row (evidence table): engine-relevant fields. -/
structure Evidence where
  id : Nat
  articleId : Nat
  userId : Nat
  type : String
  tokenReward : Nat
deriving DecidableEq, Repr

/-- The `Verification` row (verifications table): engine-relevant fields. -/
structure Verification where
  id : Nat
  articleId : Nat
  userId : Nat
  status : String
deriving DecidableEq, Repr

/-- A token-award ledger entry (`MemStorage.tokenAwards` element; the
`timestamp` field is not modelled). -/
structure TokenAward where
  amount : Nat
  reason : String
  txHash : Option String
deriving DecidableEq, Repr

/-- Insert shape for `createUser` (engine-relevant fields). -/
structure InsertUser where
  role : String
  ensAddress : Option String
deriving DecidableEq, Repr

/-- Insert shape for `createArticle` (engine-relevant fields). -/
structure InsertArticle where
  authorId : Nat
  status : String
  isWhistleblower : Bool
deriving DecidableEq, Repr

/-- Insert shape for `createEvidence`. -/
structure InsertEvidence where
  articleId : Nat
  userId : Nat
  type : String
deriving DecidableEq, Repr

/-- Insert shape for `createVerification`. -/
structure InsertVerification where
  articleId : Nat
  userId : Nat
  status : String
deriving DecidableEq, Repr

/-- The in-memory store (`MemStorage`): the `Map` fields and id counters
used by the verification/reward engine. -/
structure MemStorage where
  users : List (Nat × User)
  articles : List (Nat × Article)
  evidence : List (Nat × Evidence)
  verifications : List (Nat × Verification)
  tokenAwards : List (Nat × List TokenAward)
  userId : Nat
  articleId : Nat
  evidenceId : Nat
  verificationId : Nat
deriving DecidableEq, Repr

/-- The store as built by the `MemStorage` constructor before `seedData()`
runs (`seedData` itself only issues `createUser`/`createArticle` calls,
which are transitions of the step relation below). -/
def MemStorage.init : MemStorage :=
  { users := [], articles := [], evidence := [], verifications := []
    tokenAwards := [], userId := 1, articleId := 1, evidenceId := 1
    verificationId := 1 }

/-! ## MemStorage operations (server storage module) -/

namespace MemStorage

/-- Embeds `MemStorage.getUser`. -/
def getUser (s : MemStorage) (id : Nat) : Option User :=
  mapGet s.users id

/-- Embeds `MemStorage.getArticle`. -/
def getArticle (s : MemStorage) (id : Nat) : Option Article :=
  mapGet s.articles id

/-- Embeds `MemStorage.createUser`: allocates the next user id.  The constructor
overrides `truthTokens` with `0` for every insert (the spread is followed
by `truthTokens: 0`). -/
def createUser (s : MemStorage) (iu : InsertUser) : User × MemStorage :=
  let id := s.userId
  let user : User :=
    { id := id, role := iu.role, truthTokens := 0, ensAddress := iu.ensAddress }
  (user, { s with userId := s.userId + 1, users := mapSet s.users id user })

/-- Embeds `MemStorage.updateUserTokens`: adds `tokens` to the user's balance.
The source reads `user.truthTokens ? user.truthTokens + tokens : tokens`,
a JavaScript truthiness test in which a balance of `0` is falsy. -/
def updateUserTokens (s : MemStorage) (id : Nat) (tokens : Nat) :
    Option User × MemStorage :=
  match mapGet s.users id with
  | none => (none, s)
  | some user =>
    let updatedUser :=
      { user with
        truthTokens :=
          if user.truthTokens ≠ 0 then user.truthTokens + tokens else tokens }
    (some updatedUser, { s with users := mapSet s.users id updatedUser })

/-- Embeds `MemStorage.createArticle`: allocates the next article id and starts the
verification counter at `0`. -/
def createArticle (s : MemStorage) (ia : InsertArticle) : Article × MemStorage :=
  let id := s.articleId
  let article : Article :=
    { id := id, authorId := ia.authorId, status := ia.status
      isWhistleblower := ia.isWhistleblower, verificationCount := 0
      truthScore := none }
  (article,
    { s with articleId := s.articleId + 1, articles := mapSet s.articles id article })

/-- Embeds `MemStorage.updateArticleStatus`: unconditionally overwrites the status
(the administrative override of §4.3). -/
def updateArticleStatus (s : MemStorage) (id : Nat) (status : String) :
    Option Article × MemStorage :=
  match mapGet s.articles id with
  | none => (none, s)
  | some article =>
    let updatedArticle := { article with status := status }
    (some updatedArticle, { s with articles := mapSet s.articles id updatedArticle })

/-- Embeds `MemStorage.updateArticleTruthScore`: sets `truthScore` and re-derives the
status from the score thresholds (`score >= 70 ? 'verified' :
(score <= 30 ? 'disproven' : article.status)`). -/
def updateArticleTruthScore (s : MemStorage) (id : Nat) (score : Nat) :
    Option Article × MemStorage :=
  match mapGet s.articles id with
  | none => (none, s)
  | some article =>
    let updatedArticle :=
      { article with
        truthScore := some score
        status :=
          if score ≥ 70 then "verified"
          else if score ≤ 30 then "disproven" else article.status }
    (some updatedArticle, { s with articles := mapSet s.articles id updatedArticle })

/-- Embeds `MemStorage.calculateTokenReward`: evidence reward table with a silent
default branch. -/
def calculateTokenReward (evidenceType : String) : Nat :=
  match evidenceType with
  | "supporting" => 2
  | "contradicting" => 3
  | "contextual" => 1
  | _ => 1

/-- Embeds `MemStorage.createEvidence`: allocates an id, fixes `tokenReward` from the
table, stores the record, then credits the submitting user. -/
def createEvidence (s : MemStorage) (ie : InsertEvidence) : Evidence × MemStorage :=
  let id := s.evidenceId
  let s1 := { s with evidenceId := s.evidenceId + 1 }
  let tokenReward := calculateTokenReward ie.type
  let ev : Evidence :=
    { id := id, articleId := ie.articleId, userId := ie.userId
      type := ie.type, tokenReward := tokenReward }
  let s2 := { s1 with evidence := mapSet s1.evidence id ev }
  let s3 := (updateUserTokens s2 ie.userId tokenReward).2
  (ev, s3)

/-- Embeds `MemStorage.getVerificationsForArticle`: all stored verification records
whose `articleId` matches (in `Map.values()` insertion order). -/
def getVerificationsForArticle (s : MemStorage) (articleId : Nat) :
    List Verification :=
  (s.verifications.map Prod.snd).filter (fun v => v.articleId == articleId)

/-- Embeds `MemStorage.createVerification`: stores the record, then — if the
referenced article exists — increments its `verificationCount` and applies
the count-threshold policy (`verifiedCount >= 5` checked before
`disprovenCount >= 5`, each guarded against re-entering the same terminal
status); finally credits the verifier with a flat 5 tokens. -/
def createVerification (s : MemStorage) (iv : InsertVerification) :
    Verification × MemStorage :=
  let id := s.verificationId
  let s1 := { s with verificationId := s.verificationId + 1 }
  let verification : Verification :=
    { id := id, articleId := iv.articleId, userId := iv.userId, status := iv.status }
  let s2 := { s1 with verifications := mapSet s1.verifications id verification }
  let s3 :=
    match mapGet s2.articles iv.articleId with
    | none => s2
    | some article =>
      let updatedArticle :=
        { article with verificationCount := article.verificationCount + 1 }
      let s3a := { s2 with articles := mapSet s2.articles article.id updatedArticle }
      let verifs := getVerificationsForArticle s3a article.id
      let verifiedCount := (verifs.filter (fun v => v.status == "verified")).length
      let disprovenCount := (verifs.filter (fun v => v.status == "disproven")).length
      if verifiedCount ≥ 5 ∧ article.status ≠ "verified" then
        let s3b := (updateArticleStatus s3a article.id "verified").2
        (updateUserTokens s3b article.authorId 10).2
      else if disprovenCount ≥ 5 ∧ article.status ≠ "disproven" then
        (updateArticleStatus s3a article.id "disproven").2
      else s3a
  let s4 := (updateUserTokens s3 iv.userId 5).2
  (verification, s4)

/-- Result shape of `MemStorage.getVerificationScore`. -/
structure ScoreData where
  totalCount : Nat
  positiveCount : Nat
  negativeCount : Nat
  score : Nat
deriving DecidableEq, Repr

/-- Embeds `MemStorage.getVerificationScore`: counts positive/negative judgments and
computes `Math.round((positiveCount / totalCount) * 100)`, defaulting to a
neutral `50` on an empty history. -/
def getVerificationScore (s : MemStorage) (articleId : Nat) : ScoreData :=
  let verifications := getVerificationsForArticle s articleId
  let totalCount := verifications.length
  let positiveCount := (verifications.filter (fun v => v.status == "verified")).length
  let negativeCount := (verifications.filter (fun v => v.status == "disproven")).length
  let score :=
    if totalCount > 0 then
      (round (((positiveCount : ℚ) / (totalCount : ℚ)) * 100)).toNat
    else 50
  { totalCount := totalCount, positiveCount := positiveCount
    negativeCount := negativeCount, score := score }

/-- Embeds `MemStorage.logTokenAward`: appends a ledger entry for `userId`, then
credits the balance through `updateUserTokens`. -/
def logTokenAward (s : MemStorage) (userId : Nat) (amount : Nat) (reason : String)
    (txHash : Option String) : MemStorage :=
  let awards := (mapGet s.tokenAwards userId).getD []
  let awards1 := awards ++ [{ amount := amount, reason := reason, txHash := txHash }]
  let s1 := { s with tokenAwards := mapSet s.tokenAwards userId awards1 }
  (updateUserTokens s1 userId amount).2

/-- Embeds `MemStorage.getTokenAwards`. -/
def getTokenAwards (s : MemStorage) (userId : Nat) : List TokenAward :=
  (mapGet s.tokenAwards userId).getD []

end MemStorage

/-! ## Route handlers (server/routes.ts)

Authentication and role checks (`authenticateUser`, `req.user.role`
guards) reject a request without touching the store; the handlers are
modelled from the point where a request has passed them. -/

open MemStorage

/-- Embeds `POST /api/verifications`: rejects with 404 — before any store
mutation — when the referenced article does not exist, otherwise records
the verification.  `none` is the rejected case. -/
def apiCreateVerification (s : MemStorage) (iv : InsertVerification) :
    Option Verification × MemStorage :=
  match getArticle s iv.articleId with
  | none => (none, s)
  | some _ =>
    let (v, s1) := createVerification s iv
    (some v, s1)

/-- Embeds `POST /api/articles/:id/evidence`: rejects with 404 — before any store
mutation — when the referenced article does not exist, otherwise records
the evidence. -/
def apiCreateEvidence (s : MemStorage) (ie : InsertEvidence) :
    Option Evidence × MemStorage :=
  match getArticle s ie.articleId with
  | none => (none, s)
  | some _ =>
    let (ev, s1) := createEvidence s ie
    (some ev, s1)

/-- Embeds `POST /api/rewards/award`: checks the user exists, then logs the award
(the preceding `blockchain.awardTokens` call and the `txHash` it yields are
the external reward-issuance sink, out of scope; the handler's in-store
effect is the `logTokenAward`). -/
def apiRewardsAward (s : MemStorage) (userId : Nat) (amount : Nat)
    (reason : String) : Option Unit × MemStorage :=
  match getUser s userId with
  | none => (none, s)
  | some _ => (some (), logTokenAward s userId amount reason none)

/-- Response of the verify-truth handler (HTTP bodies reduced to the
fields the spec talks about). -/
inductive VerifyTruthResult where
  | notFound
  | verified (score : Nat)
  | disproven (score : Nat)
  | unchanged (status : String) (score : Nat)
deriving DecidableEq, Repr

/-- Embeds `POST /api/articles/:id/verify-truth` — the score-threshold evaluation:
recompute the aggregate score, then

* `score >= 70 && status !== 'verified'`: set status `verified`, set the
  truth score, pay the author 10 (15 if whistleblower) through
  `logTokenAward` when the author exists, broadcast `article_verified`;
* else `score <= 30 && status !== 'disproven'`: set status `disproven`,
  set the truth score, broadcast `article_disproven`, no reward;
* else: only update the truth score.

The WebSocket broadcast is the external notification collaborator and has
no in-store effect. -/
def verifyTruthHandler (s : MemStorage) (id : Nat) :
    VerifyTruthResult × MemStorage :=
  match getArticle s id with
  | none => (.notFound, s)
  | some article =>
    let scoreData := getVerificationScore s id
    if scoreData.score ≥ 70 ∧ article.status ≠ "verified" then
      let s1 := (updateArticleStatus s id "verified").2
      let s2 := (updateArticleTruthScore s1 id scoreData.score).2
      let tokenAmount := if article.isWhistleblower then 15 else 10
      let s3 :=
        match getUser s2 article.authorId with
        | some author => logTokenAward s2 author.id tokenAmount "Article verified" none
        | none => s2
      (.verified scoreData.score, s3)
    else if scoreData.score ≤ 30 ∧ article.status ≠ "disproven" then
      let s1 := (updateArticleStatus s id "disproven").2
      let s2 := (updateArticleTruthScore s1 id scoreData.score).2
      (.disproven scoreData.score, s2)
    else
      let s1 := (updateArticleTruthScore s id scoreData.score).2
      (.unchanged article.status scoreData.score, s1)

/-! ## The engine's reachable states

One step per store-mutating operation of the engine's API surface
(registration, article submission, evidence submission, verification
submission, the score-threshold evaluation, the reward-award route, and
the administrative status override). -/

/-- One engine operation. -/
inductive Step : MemStorage → MemStorage → Prop where
  | createUser (s : MemStorage) (iu : InsertUser) :
      Step s (MemStorage.createUser s iu).2
  | createArticle (s : MemStorage) (ia : InsertArticle) :
      Step s (MemStorage.createArticle s ia).2
  | createEvidence (s : MemStorage) (ie : InsertEvidence) :
      Step s (apiCreateEvidence s ie).2
  | createVerification (s : MemStorage) (iv : InsertVerification) :
      Step s (apiCreateVerification s iv).2
  | verifyTruth (s : MemStorage) (id : Nat) :
      Step s (verifyTruthHandler s id).2
  | rewardsAward (s : MemStorage) (userId amount : Nat) (reason : String) :
      Step s (apiRewardsAward s userId amount reason).2
  | adminSetStatus (s : MemStorage) (id : Nat) (status : String) :
      Step s (MemStorage.updateArticleStatus s id status).2

/-- States reachable from the freshly constructed store. -/
def Reachable (s : MemStorage) : Prop :=
  Relation.ReflTransGen Step MemStorage.init s

/-! ## Concrete scenario stores and invariant definitions -/

/-- A store with two registered users: user 1 (a journalist, the author in
the scenarios) and user 2 (a publisher, the verifier). -/
def demoUsers : MemStorage :=
  (MemStorage.createUser
    (MemStorage.createUser MemStorage.init
      { role := "journalist", ensAddress := none }).2
    { role := "publisher", ensAddress := none }).2

/-- The store `demoUsers` plus a pending non-whistleblower article (id 1) by user 1. -/
def demoStore : MemStorage :=
  (MemStorage.createArticle demoUsers
    { authorId := 1, status := "pending", isWhistleblower := false }).2

/-- The store `demoUsers` plus a pending whistleblower article (id 1) by user 1. -/
def demoStoreWb : MemStorage :=
  (MemStorage.createArticle demoUsers
    { authorId := 1, status := "pending", isWhistleblower := true }).2

/-- The store `demoStore` after user 2 records one `verified` and two `disproven`
verifications on article 1. -/
def demoVerifScores : MemStorage :=
  (MemStorage.createVerification
    (MemStorage.createVerification
      (MemStorage.createVerification demoStore
        { articleId := 1, userId := 2, status := "verified" }).2
      { articleId := 1, userId := 2, status := "disproven" }).2
    { articleId := 1, userId := 2, status := "disproven" }).2

/-- Round half up to the nearest integer, in the words of the spec's
scoring formula. -/
def roundHalfUp (x : ℚ) : ℤ := ⌊x + 1/2⌋

/-- The store `demoUsers` plus an article (id 1) by user 1 already in status
`verified` (as the seeded articles are). -/
def verifiedBase : MemStorage :=
  (MemStorage.createArticle demoUsers
    { authorId := 1, status := "verified", isWhistleblower := false }).2

/-- The store `verifiedBase` after user 2 records n `disproven` verifications on
article 1, one at a time. -/
def disproveRun : Nat → MemStorage
  | 0 => verifiedBase
  | n + 1 =>
    (MemStorage.createVerification (disproveRun n)
      { articleId := 1, userId := 2, status := "disproven" }).2

/-- The store `demoStore` after user 2 records n `verified` verifications on
article 1, one at a time. -/
def verifyRun : Nat → MemStorage
  | 0 => demoStore
  | n + 1 =>
    (MemStorage.createVerification (verifyRun n)
      { articleId := 1, userId := 2, status := "verified" }).2

/-- The store `demoStoreWb` (whistleblower article) after user 2 records n
`verified` verifications on article 1, one at a time. -/
def verifyRunWb : Nat → MemStorage
  | 0 => demoStoreWb
  | n + 1 =>
    (MemStorage.createVerification (verifyRunWb n)
      { articleId := 1, userId := 2, status := "verified" }).2

/-- Invariant of the all-`verified` count-path run: after k one-at-a-time
`verified` verifications by `verifier` on the article `aid` by `author`
(who started at T tokens while the verifier started at V), the article is
`pending` below the threshold of 5 and `verified` from it on, the author
has been paid 10 tokens exactly once, and the verifier has collected 5
per record. -/
def VRunInv (aid author verifier T V k : Nat) (s : MemStorage) : Prop :=
  author ≠ verifier ∧
  (∃ a, mapGet s.articles aid = some a ∧ a.id = aid ∧ a.authorId = author ∧
    a.status = (if 5 ≤ k then "verified" else "pending")) ∧
  (MemStorage.getVerificationsForArticle s aid).length = k ∧
  (∀ v ∈ MemStorage.getVerificationsForArticle s aid, v.status = "verified") ∧
  (∀ p ∈ s.verifications, p.1 < s.verificationId) ∧
  (∃ u, mapGet s.users author = some u ∧
    u.truthTokens = T + (if 5 ≤ k then 10 else 0)) ∧
  (∃ u, mapGet s.users verifier = some u ∧ u.truthTokens = V + 5 * k)

/-- n `verified` verifications recorded one at a time by `verifier` on
article `aid`, starting from store s. -/
def recordVerifiedRun (s : MemStorage) (aid verifier : Nat) : Nat → MemStorage
  | 0 => s
  | n + 1 =>
    (MemStorage.createVerification (recordVerifiedRun s aid verifier n)
      { articleId := aid, userId := verifier, status := "verified" }).2

/-- The store `verifyRun 5` (article already `verified` by the count path) with four
further `disproven` verifications and an administrative reset of the
status to `pending`: both count conditions hold on the next `disproven`
record, exposing which one is checked first. -/
def mixedRun : Nat → MemStorage
  | 0 => verifyRun 5
  | n + 1 =>
    (MemStorage.createVerification (mixedRun n)
      { articleId := 1, userId := 2, status := "disproven" }).2

def ordStore : MemStorage :=
  (MemStorage.updateArticleStatus (mixedRun 4) 1 "pending").2

/-- The store invariant behind C8: article keys are unique and consistent
with the stored ids, all ids are below the allocation counters, and every
article's `verificationCount` equals the number of its verification
records. -/
def StoreInv (s : MemStorage) : Prop :=
  (s.articles.map Prod.fst).Nodup ∧
  (∀ p ∈ s.articles, p.2.id = p.1 ∧ p.1 < s.articleId) ∧
  (∀ p ∈ s.verifications, p.1 < s.verificationId ∧ p.2.articleId < s.articleId) ∧
  (∀ p ∈ s.articles, p.2.verificationCount =
    (MemStorage.getVerificationsForArticle s p.1).length)

/-! ## Map lemmas -/

theorem mapGet_nil {α : Type} (k : Nat) : mapGet ([] : List (Nat × α)) k = none := rfl

theorem mapGet_cons {α : Type} (k' : Nat) (v' : α) (m : List (Nat × α)) (k : Nat) :
    mapGet ((k', v') :: m) k = if k' = k then some v' else mapGet m k := by
  by_cases h : k' = k
  · subst h; simp [mapGet]
  · simp [mapGet, h]

theorem mapGet_mapSet_self {α : Type} (m : List (Nat × α)) (k : Nat) (v : α) :
    mapGet (mapSet m k v) k = some v := by
  induction m with
  | nil => simp [mapSet, mapGet_cons]
  | cons p rest ih =>
    obtain ⟨k', v'⟩ := p
    by_cases h : k' = k
    · subst h; simp [mapSet, mapGet_cons]
    · simp [mapSet, h, mapGet_cons, ih]

theorem mapGet_mapSet_ne {α : Type} (m : List (Nat × α)) {k k' : Nat} (v : α)
    (h : k' ≠ k) : mapGet (mapSet m k v) k' = mapGet m k' := by
  have h' : k ≠ k' := fun hh => h hh.symm
  induction m with
  | nil => simp [mapSet, mapGet_cons, h']
  | cons p rest ih =>
    obtain ⟨k₀, v₀⟩ := p
    by_cases h₀ : k₀ = k
    · subst h₀
      simp [mapSet, mapGet_cons, h']
    · simp [mapSet, h₀, mapGet_cons, ih]

theorem mapSet_of_fresh {α : Type} {m : List (Nat × α)} {k : Nat}
    (h : mapGet m k = none) (v : α) : mapSet m k v = m ++ [(k, v)] := by
  induction m with
  | nil => rfl
  | cons p rest ih =>
    obtain ⟨k', v'⟩ := p
    rw [mapGet_cons] at h
    by_cases hk : k' = k
    · rw [if_pos hk] at h
      exact absurd h (by simp)
    · rw [if_neg hk] at h
      simp [mapSet, hk, ih h]

theorem mem_mapSet {α : Type} {m : List (Nat × α)} {k : Nat} {v : α}
    {p : Nat × α} (h : p ∈ mapSet m k v) : p = (k, v) ∨ p ∈ m := by
  induction m with
  | nil => simpa [mapSet] using h
  | cons q rest ih =>
    obtain ⟨k', v'⟩ := q
    by_cases hk : k' = k
    · subst hk
      simp only [mapSet, if_pos rfl] at h
      cases h with
      | head => exact Or.inl rfl
      | tail _ hmem => exact Or.inr (List.mem_cons_of_mem _ hmem)
    · simp only [mapSet, if_neg hk] at h
      cases h with
      | head => exact Or.inr (List.mem_cons_self _ _)
      | tail _ hmem =>
        rcases ih hmem with h' | h'
        · exact Or.inl h'
        · exact Or.inr (List.mem_cons_of_mem _ h')

theorem mapGet_mem {α : Type} {m : List (Nat × α)} {k : Nat} {v : α}
    (h : mapGet m k = some v) : (k, v) ∈ m := by
  induction m with
  | nil => simp [mapGet_nil] at h
  | cons p rest ih =>
    obtain ⟨k', v'⟩ := p
    rw [mapGet_cons] at h
    by_cases hk : k' = k
    · subst hk
      simp at h
      simp [h]
    · simp [hk] at h
      exact List.mem_cons_of_mem _ (ih h)

theorem mapGet_eq_none_of_keys_lt {α : Type} {m : List (Nat × α)} {n k : Nat}
    (hk : ∀ p ∈ m, p.1 < n) (h : n ≤ k) : mapGet m k = none := by
  induction m with
  | nil => rfl
  | cons p rest ih =>
    rw [mapGet_cons]
    have h1 : p.1 < n := hk p (List.mem_cons_self _ _)
    have : p.1 ≠ k := by omega
    rw [if_neg this]
    exact ih (fun q hq => hk q (List.mem_cons_of_mem _ hq))

/-! ## Operation lemmas -/

namespace MemStorage

theorem updateUserTokens_none {s : MemStorage} {id : Nat}
    (h : mapGet s.users id = none) (t : Nat) : (updateUserTokens s id t).2 = s := by
  unfold updateUserTokens
  rw [h]

theorem updateUserTokens_some {s : MemStorage} {id : Nat} {u : User}
    (h : mapGet s.users id = some u) (t : Nat) :
    (updateUserTokens s id t).2 =
      { s with users := mapSet s.users id { u with truthTokens := u.truthTokens + t } } := by
  unfold updateUserTokens
  rw [h]
  by_cases h0 : u.truthTokens = 0 <;> simp [h0]

theorem updateUserTokens_articles (s : MemStorage) (id t : Nat) :
    ((updateUserTokens s id t).2).articles = s.articles := by
  unfold updateUserTokens
  cases mapGet s.users id <;> simp

theorem updateUserTokens_verifications (s : MemStorage) (id t : Nat) :
    ((updateUserTokens s id t).2).verifications = s.verifications := by
  unfold updateUserTokens
  cases mapGet s.users id <;> simp

theorem updateUserTokens_tokenAwards (s : MemStorage) (id t : Nat) :
    ((updateUserTokens s id t).2).tokenAwards = s.tokenAwards := by
  unfold updateUserTokens
  cases mapGet s.users id <;> simp

theorem updateUserTokens_ids (s : MemStorage) (id t : Nat) :
    ((updateUserTokens s id t).2).articleId = s.articleId ∧
      ((updateUserTokens s id t).2).verificationId = s.verificationId := by
  unfold updateUserTokens
  cases mapGet s.users id <;> simp

theorem updateUserTokens_get_ne {s : MemStorage} {id id' : Nat} (t : Nat)
    (h : id' ≠ id) :
    mapGet ((updateUserTokens s id t).2).users id' = mapGet s.users id' := by
  unfold updateUserTokens
  cases hu : mapGet s.users id
  · simp
  · simp [mapGet_mapSet_ne _ _ h]

theorem updateUserTokens_get_self {s : MemStorage} {id : Nat} {u : User}
    (h : mapGet s.users id = some u) (t : Nat) :
    mapGet ((updateUserTokens s id t).2).users id =
      some { u with truthTokens := u.truthTokens + t } := by
  rw [updateUserTokens_some h t]
  exact mapGet_mapSet_self _ _ _

theorem updateUserTokens_get_self_map (s : MemStorage) (id t : Nat) :
    mapGet ((updateUserTokens s id t).2).users id =
      (mapGet s.users id).map (fun u => { u with truthTokens := u.truthTokens + t }) := by
  cases hu : mapGet s.users id
  · rw [updateUserTokens_none hu]
    rw [hu]
    rfl
  · rw [updateUserTokens_some hu]
    rw [show (({ s with users := mapSet s.users id _ } : MemStorage)).users =
      mapSet s.users id _ from rfl]
    rw [mapGet_mapSet_self]
    rfl

theorem updateUserTokens_users_congr {x y : MemStorage} (h : x.users = y.users)
    (id t : Nat) :
    ((updateUserTokens x id t).2).users = ((updateUserTokens y id t).2).users := by
  unfold updateUserTokens
  rw [h]
  cases mapGet y.users id <;> simp [h]

theorem updateArticleStatus_none {s : MemStorage} {id : Nat}
    (h : mapGet s.articles id = none) (st : String) :
    updateArticleStatus s id st = (none, s) := by
  unfold updateArticleStatus
  rw [h]

theorem updateArticleStatus_some {s : MemStorage} {id : Nat} {a : Article}
    (h : mapGet s.articles id = some a) (st : String) :
    updateArticleStatus s id st =
      (some { a with status := st },
        { s with articles := mapSet s.articles id { a with status := st } }) := by
  unfold updateArticleStatus
  rw [h]

theorem updateArticleStatus_users (s : MemStorage) (id : Nat) (st : String) :
    ((updateArticleStatus s id st).2).users = s.users := by
  unfold updateArticleStatus
  cases mapGet s.articles id <;> simp

theorem updateArticleStatus_verifications (s : MemStorage) (id : Nat) (st : String) :
    ((updateArticleStatus s id st).2).verifications = s.verifications := by
  unfold updateArticleStatus
  cases mapGet s.articles id <;> simp

theorem updateArticleStatus_tokenAwards (s : MemStorage) (id : Nat) (st : String) :
    ((updateArticleStatus s id st).2).tokenAwards = s.tokenAwards := by
  unfold updateArticleStatus
  cases mapGet s.articles id <;> simp

theorem updateArticleTruthScore_none {s : MemStorage} {id : Nat}
    (h : mapGet s.articles id = none) (score : Nat) :
    updateArticleTruthScore s id score = (none, s) := by
  unfold updateArticleTruthScore
  rw [h]

theorem updateArticleTruthScore_some {s : MemStorage} {id : Nat} {a : Article}
    (h : mapGet s.articles id = some a) (score : Nat) :
    updateArticleTruthScore s id score =
      (some { a with
                truthScore := some score
                status :=
                  if score ≥ 70 then "verified"
                  else if score ≤ 30 then "disproven" else a.status },
        { s with
            articles :=
              mapSet s.articles id
                { a with
                    truthScore := some score
                    status :=
                      if score ≥ 70 then "verified"
                      else if score ≤ 30 then "disproven" else a.status } }) := by
  unfold updateArticleTruthScore
  rw [h]

theorem updateArticleTruthScore_users (s : MemStorage) (id score : Nat) :
    ((updateArticleTruthScore s id score).2).users = s.users := by
  unfold updateArticleTruthScore
  cases mapGet s.articles id <;> simp

theorem updateArticleTruthScore_verifications (s : MemStorage) (id score : Nat) :
    ((updateArticleTruthScore s id score).2).verifications = s.verifications := by
  unfold updateArticleTruthScore
  cases mapGet s.articles id <;> simp

theorem updateArticleTruthScore_tokenAwards (s : MemStorage) (id score : Nat) :
    ((updateArticleTruthScore s id score).2).tokenAwards = s.tokenAwards := by
  unfold updateArticleTruthScore
  cases mapGet s.articles id <;> simp

theorem logTokenAward_articles (s : MemStorage) (uid amt : Nat) (r : String)
    (tx : Option String) :
    (logTokenAward s uid amt r tx).articles = s.articles := by
  unfold logTokenAward
  rw [updateUserTokens_articles]

theorem logTokenAward_verifications (s : MemStorage) (uid amt : Nat) (r : String)
    (tx : Option String) :
    (logTokenAward s uid amt r tx).verifications = s.verifications := by
  unfold logTokenAward
  rw [updateUserTokens_verifications]

theorem logTokenAward_awards_self (s : MemStorage) (uid amt : Nat) (r : String)
    (tx : Option String) :
    getTokenAwards (logTokenAward s uid amt r tx) uid =
      getTokenAwards s uid ++ [{ amount := amt, reason := r, txHash := tx }] := by
  unfold logTokenAward getTokenAwards
  rw [updateUserTokens_tokenAwards]
  simp [mapGet_mapSet_self]

theorem logTokenAward_users_of_none {s : MemStorage} {uid : Nat}
    (h : mapGet s.users uid = none) (amt : Nat) (r : String) (tx : Option String) :
    (logTokenAward s uid amt r tx).users = s.users := by
  unfold logTokenAward
  rw [updateUserTokens_none (by simpa using h)]

theorem logTokenAward_users_of_some {s : MemStorage} {uid : Nat} {u : User}
    (h : mapGet s.users uid = some u) (amt : Nat) (r : String) (tx : Option String) :
    (logTokenAward s uid amt r tx).users =
      mapSet s.users uid { u with truthTokens := u.truthTokens + amt } := by
  unfold logTokenAward
  rw [updateUserTokens_some (by simpa using h)]

/-- The reader `getVerificationsForArticle` only reads the verifications component. -/
theorem getVerificationsForArticle_congr {s₁ s₂ : MemStorage}
    (h : s₁.verifications = s₂.verifications) (aid : Nat) :
    getVerificationsForArticle s₁ aid = getVerificationsForArticle s₂ aid := by
  unfold getVerificationsForArticle
  rw [h]

/-- The reader `getVerificationScore` only reads the verifications component. -/
theorem getVerificationScore_congr {s₁ s₂ : MemStorage}
    (h : s₁.verifications = s₂.verifications) (aid : Nat) :
    getVerificationScore s₁ aid = getVerificationScore s₂ aid := by
  unfold getVerificationScore
  rw [getVerificationsForArticle_congr h]

end MemStorage

/-! ## Claims -/

/-- C10: for every existing article and score, `updateArticleTruthScore`
sets `truthScore` to the score and re-derives the status: `verified`
whenever `score ≥ 70`, `disproven` whenever `score ≤ 30`, the previous
status otherwise — regardless of the current status — and changes no
user balance and no ledger entry. -/
theorem truth_score_override (s : MemStorage) (id score : Nat) (a : Article)
    (h : mapGet s.articles id = some a) :
    mapGet ((MemStorage.updateArticleTruthScore s id score).2).articles id =
      some { a with
               truthScore := some score
               status :=
                 if score ≥ 70 then "verified"
                 else if score ≤ 30 then "disproven" else a.status } ∧
    ((MemStorage.updateArticleTruthScore s id score).2).users = s.users ∧
    ((MemStorage.updateArticleTruthScore s id score).2).tokenAwards = s.tokenAwards := by
  refine ⟨?_, MemStorage.updateArticleTruthScore_users s id score,
    MemStorage.updateArticleTruthScore_tokenAwards s id score⟩
  rw [MemStorage.updateArticleTruthScore_some h score]
  exact mapGet_mapSet_self _ _ _

/-- Witness for C10: scoring the pending demo article at 80 flips it to
`verified` with `truthScore = 80` and no reward. -/
theorem truth_score_override_witness :
    mapGet ((MemStorage.updateArticleTruthScore demoStore 1 80).2).articles 1 =
      some { id := 1, authorId := 1
             status :=
               if 80 ≥ 70 then "verified"
               else if 80 ≤ 30 then "disproven" else "pending"
             isWhistleblower := false, verificationCount := 0
             truthScore := some 80 } ∧
    ((MemStorage.updateArticleTruthScore demoStore 1 80).2).users = demoStore.users ∧
    ((MemStorage.updateArticleTruthScore demoStore 1 80).2).tokenAwards =
      demoStore.tokenAwards :=
  truth_score_override demoStore 1 80
    { id := 1, authorId := 1, status := "pending", isWhistleblower := false
      verificationCount := 0, truthScore := none } (by decide)

/-- The evidence-reward match expressed as an if-chain. -/
theorem calculateTokenReward_eq (t : String) :
    MemStorage.calculateTokenReward t =
      if t = "supporting" then 2
      else if t = "contradicting" then 3
      else if t = "contextual" then 1 else 1 := by
  unfold MemStorage.calculateTokenReward
  split <;> simp_all

/-- C5: when the referenced article does not exist, both the verification
and the evidence creation requests are rejected with no store change at
all: no record stored, no counter incremented, no balance changed. -/
theorem missing_article_rejected (s : MemStorage) (iv : InsertVerification)
    (ie : InsertEvidence) (hv : mapGet s.articles iv.articleId = none)
    (he : mapGet s.articles ie.articleId = none) :
    apiCreateVerification s iv = (none, s) ∧ apiCreateEvidence s ie = (none, s) := by
  unfold apiCreateVerification apiCreateEvidence MemStorage.getArticle
  rw [hv, he]
  exact ⟨rfl, rfl⟩

/-- Witness for C5: submitting a verification or evidence against the
nonexistent article 99 leaves the demo store untouched. -/
theorem missing_article_rejected_witness :
    apiCreateVerification demoStore
      { articleId := 99, userId := 2, status := "verified" } = (none, demoStore) ∧
    apiCreateEvidence demoStore
      { articleId := 99, userId := 2, type := "supporting" } = (none, demoStore) :=
  missing_article_rejected demoStore
    { articleId := 99, userId := 2, status := "verified" }
    { articleId := 99, userId := 2, type := "supporting" }
    (by decide) (by decide)

/-- C9: evidence submission creates exactly one Evidence record, with
`tokenReward` fixed at creation by the table supporting → 2,
contradicting → 3, contextual → 1, anything else → 1 (silent fallback),
and credits the submitting user by exactly that amount. -/
theorem evidence_reward (s : MemStorage) (ie : InsertEvidence) (u : User)
    (hu : mapGet s.users ie.userId = some u)
    (hfresh : mapGet s.evidence s.evidenceId = none) :
    (MemStorage.createEvidence s ie).1.tokenReward =
      (if ie.type = "supporting" then 2
       else if ie.type = "contradicting" then 3
       else if ie.type = "contextual" then 1 else 1) ∧
    ((MemStorage.createEvidence s ie).2).evidence =
      s.evidence ++ [(s.evidenceId, (MemStorage.createEvidence s ie).1)] ∧
    mapGet ((MemStorage.createEvidence s ie).2).users ie.userId =
      some { u with
               truthTokens :=
                 u.truthTokens + (MemStorage.createEvidence s ie).1.tokenReward } := by
  refine ⟨?_, ?_, ?_⟩
  · show MemStorage.calculateTokenReward ie.type = _
    exact calculateTokenReward_eq ie.type
  · show ((MemStorage.updateUserTokens _ _ _).2).evidence = _
    rw [show ∀ s' id t, ((MemStorage.updateUserTokens s' id t).2).evidence = s'.evidence by
      intro s' id t
      unfold MemStorage.updateUserTokens
      cases mapGet s'.users id <;> simp]
    simp only
    rw [mapSet_of_fresh hfresh]
    rfl
  · exact MemStorage.updateUserTokens_get_self (by simpa using hu) _

/-- Witness for C9: user 2 submits "contradicting" evidence on article 1
of the demo store; one record with reward 3 is appended and user 2's
balance rises by 3. -/
theorem evidence_reward_witness :
    (MemStorage.createEvidence demoStore
      { articleId := 1, userId := 2, type := "contradicting" }).1.tokenReward =
      (if "contradicting" = "supporting" then 2
       else if "contradicting" = "contradicting" then 3
       else if "contradicting" = "contextual" then 1 else 1) ∧
    ((MemStorage.createEvidence demoStore
      { articleId := 1, userId := 2, type := "contradicting" }).2).evidence =
      demoStore.evidence ++
        [(demoStore.evidenceId,
          (MemStorage.createEvidence demoStore
            { articleId := 1, userId := 2, type := "contradicting" }).1)] ∧
    mapGet ((MemStorage.createEvidence demoStore
      { articleId := 1, userId := 2, type := "contradicting" }).2).users 2 =
      some { id := 2, role := "publisher"
             truthTokens :=
               0 + (MemStorage.createEvidence demoStore
                 { articleId := 1, userId := 2, type := "contradicting" }).1.tokenReward
             ensAddress := none } :=
  evidence_reward demoStore { articleId := 1, userId := 2, type := "contradicting" }
    { id := 2, role := "publisher", truthTokens := 0, ensAddress := none }
    (by decide) (by decide)

/-- Counterexample for C7: calling the ledger's award operation for a
nonexistent user (id 99 on the fresh store) appends the ledger entry but
increments no balance — the two mutations are applied separately, so the
claim's both-or-neither reading fails. -/
theorem award_ledger_cex :
    MemStorage.getTokenAwards
        (MemStorage.logTokenAward MemStorage.init 99 5 "refund" none) 99 =
      [{ amount := 5, reason := "refund", txHash := none }] ∧
    (MemStorage.logTokenAward MemStorage.init 99 5 "refund" none).users = [] := by
  constructor
  · rfl
  · rfl

/-- C7 as amended: the award call always appends exactly one entry to the
user's award log; when the user exists, the balance is incremented by the
amount in the same call; when the user does not exist, no balance
changes (the log entry is still appended). -/
theorem award_ledger_atomicity (s : MemStorage) (uid amt : Nat) (r : String)
    (tx : Option String) :
    MemStorage.getTokenAwards (MemStorage.logTokenAward s uid amt r tx) uid =
      MemStorage.getTokenAwards s uid ++ [{ amount := amt, reason := r, txHash := tx }] ∧
    (∀ u, mapGet s.users uid = some u →
      mapGet (MemStorage.logTokenAward s uid amt r tx).users uid =
        some { u with truthTokens := u.truthTokens + amt }) ∧
    (mapGet s.users uid = none →
      (MemStorage.logTokenAward s uid amt r tx).users = s.users) := by
  refine ⟨MemStorage.logTokenAward_awards_self s uid amt r tx, ?_, ?_⟩
  · intro u hu
    rw [MemStorage.logTokenAward_users_of_some hu amt r tx]
    exact mapGet_mapSet_self _ _ _
  · intro hu
    exact MemStorage.logTokenAward_users_of_none hu amt r tx

/-- Witness for C7 (amended): awarding 7 tokens to the existing user 1 of
the demo store appends the entry and raises the balance to 7. -/
theorem award_ledger_atomicity_witness :
    MemStorage.getTokenAwards (MemStorage.logTokenAward demoStore 1 7 "test" none) 1 =
      MemStorage.getTokenAwards demoStore 1 ++
        [{ amount := 7, reason := "test", txHash := none }] ∧
    mapGet (MemStorage.logTokenAward demoStore 1 7 "test" none).users 1 =
      some { id := 1, role := "journalist", truthTokens := 0 + 7, ensAddress := none } :=
  ⟨(award_ledger_atomicity demoStore 1 7 "test" none).1,
    (award_ledger_atomicity demoStore 1 7 "test" none).2.1
      { id := 1, role := "journalist", truthTokens := 0, ensAddress := none } (by decide)⟩

theorem round_ratio_toNat (p t : Nat) (ht : 0 < t) :
    (round (((p : ℚ) / (t : ℚ)) * 100)).toNat = (200 * p + t) / (2 * t) := by
  have ht' : (t : ℚ) ≠ 0 := Nat.cast_ne_zero.mpr (by omega)
  rw [round_eq]
  have key : (p : ℚ) / (t : ℚ) * 100 + 1 / 2 =
      ((200 * p + t : ℕ) : ℚ) / ((2 * t : ℕ) : ℚ) := by
    push_cast
    field_simp
    ring
  rw [key, Int.floor_toNat, Nat.floor_div_eq_div]

theorem round_nonneg_q (x : ℚ) (hx : 0 ≤ x) : 0 ≤ round x := by
  rw [round_eq]
  have h0 : (0 : ℤ) = ⌊(1 : ℚ)/2⌋ := by norm_num
  rw [h0]
  exact Int.floor_le_floor (by linarith)

/-- The aggregator's score as closed-form natural division (used to
evaluate concrete scenarios). -/
theorem getVerificationScore_score_closed (s : MemStorage) (aid : Nat) :
    (MemStorage.getVerificationScore s aid).score =
      if (MemStorage.getVerificationsForArticle s aid).length = 0 then 50
      else
        (200 * ((MemStorage.getVerificationsForArticle s aid).filter
            (fun v => v.status == "verified")).length +
          (MemStorage.getVerificationsForArticle s aid).length) /
          (2 * (MemStorage.getVerificationsForArticle s aid).length) := by
  unfold MemStorage.getVerificationScore
  simp only
  by_cases h : (MemStorage.getVerificationsForArticle s aid).length = 0
  · simp [h]
  · rw [if_neg h, if_pos (by omega)]
    exact round_ratio_toNat _ _ (by omega)

/-- C2: the aggregator's `positiveCount` is the number of the article's
verification records with status `verified`, `negativeCount` the number
with status `disproven`, and the score is `round(positiveCount /
totalCount * 100)` rounded half up when `totalCount > 0` and exactly 50
when `totalCount = 0`. -/
theorem verification_score_spec (s : MemStorage) (aid : Nat) :
    (MemStorage.getVerificationScore s aid).totalCount =
      (MemStorage.getVerificationsForArticle s aid).length ∧
    (MemStorage.getVerificationScore s aid).positiveCount =
      (MemStorage.getVerificationsForArticle s aid).countP
        (fun v => decide (v.status = "verified")) ∧
    (MemStorage.getVerificationScore s aid).negativeCount =
      (MemStorage.getVerificationsForArticle s aid).countP
        (fun v => decide (v.status = "disproven")) ∧
    ((MemStorage.getVerificationScore s aid).score : ℤ) =
      (if (MemStorage.getVerificationScore s aid).totalCount = 0 then 50
       else
         roundHalfUp (((MemStorage.getVerificationScore s aid).positiveCount : ℚ) /
           ((MemStorage.getVerificationScore s aid).totalCount : ℚ) * 100)) := by
  refine ⟨rfl, ?_, ?_, ?_⟩
  · rw [List.countP_eq_length_filter]
    rfl
  · rw [List.countP_eq_length_filter]
    rfl
  · unfold MemStorage.getVerificationScore
    simp only
    by_cases h : (MemStorage.getVerificationsForArticle s aid).length = 0
    · simp [h]
    · rw [if_neg h, if_pos (by omega)]
      unfold roundHalfUp
      rw [← round_eq]
      exact Int.toNat_of_nonneg (round_nonneg_q _ (by positivity))

/-- Witness for C2: on the demo store after user 2 files one `verified`
and two `disproven` verifications on article 1, the aggregator reports
counts (3, 1, 2) and score `round(1/3 · 100) = 33`. -/
theorem verification_score_spec_witness :
    (MemStorage.getVerificationScore demoVerifScores 1).totalCount =
      (MemStorage.getVerificationsForArticle demoVerifScores 1).length ∧
    (MemStorage.getVerificationScore demoVerifScores 1).positiveCount =
      (MemStorage.getVerificationsForArticle demoVerifScores 1).countP
        (fun v => decide (v.status = "verified")) ∧
    (MemStorage.getVerificationScore demoVerifScores 1).negativeCount =
      (MemStorage.getVerificationsForArticle demoVerifScores 1).countP
        (fun v => decide (v.status = "disproven")) ∧
    ((MemStorage.getVerificationScore demoVerifScores 1).score : ℤ) =
      (if (MemStorage.getVerificationScore demoVerifScores 1).totalCount = 0 then 50
       else
         roundHalfUp (((MemStorage.getVerificationScore demoVerifScores 1).positiveCount : ℚ) /
           ((MemStorage.getVerificationScore demoVerifScores 1).totalCount : ℚ) * 100)) :=
  verification_score_spec demoVerifScores 1

/-! ## Verify-truth handler lemmas -/

theorem MemStorage.updateArticleStatus_get_self {s : MemStorage} {id : Nat}
    {a : Article} (h : mapGet s.articles id = some a) (st : String) :
    mapGet ((MemStorage.updateArticleStatus s id st).2).articles id =
      some { a with status := st } := by
  rw [MemStorage.updateArticleStatus_some h st]
  exact mapGet_mapSet_self _ _ _

theorem MemStorage.updateArticleTruthScore_get_self {s : MemStorage} {id : Nat}
    {a : Article} (h : mapGet s.articles id = some a) (score : Nat) :
    mapGet ((MemStorage.updateArticleTruthScore s id score).2).articles id =
      some { a with
               truthScore := some score
               status :=
                 if score ≥ 70 then "verified"
                 else if score ≤ 30 then "disproven" else a.status } := by
  rw [MemStorage.updateArticleTruthScore_some h score]
  exact mapGet_mapSet_self _ _ _

theorem verifyTruth_none {s : MemStorage} {id : Nat}
    (h : mapGet s.articles id = none) :
    verifyTruthHandler s id = (.notFound, s) := by
  unfold verifyTruthHandler MemStorage.getArticle
  rw [h]

theorem verifyTruth_verifications (s : MemStorage) (id : Nat) :
    ((verifyTruthHandler s id).2).verifications = s.verifications := by
  unfold verifyTruthHandler MemStorage.getArticle MemStorage.getUser
  cases h : mapGet s.articles id
  · rfl
  · simp only
    split_ifs <;>
      first
        | (split <;>
            simp [MemStorage.logTokenAward_verifications,
              MemStorage.updateArticleTruthScore_verifications,
              MemStorage.updateArticleStatus_verifications])
        | simp [MemStorage.logTokenAward_verifications,
            MemStorage.updateArticleTruthScore_verifications,
            MemStorage.updateArticleStatus_verifications]

/-- After one evaluation of an existing article, the stored status is the
score-derived one: `verified` for score ≥ 70, `disproven` for score ≤ 30,
otherwise unchanged. -/
theorem verifyTruth_status_some {s : MemStorage} {id : Nat} {a : Article}
    (h : mapGet s.articles id = some a) :
    (mapGet ((verifyTruthHandler s id).2).articles id).map Article.status =
      some
        (if (MemStorage.getVerificationScore s id).score ≥ 70 then "verified"
         else if (MemStorage.getVerificationScore s id).score ≤ 30 then "disproven"
         else a.status) := by
  unfold verifyTruthHandler MemStorage.getArticle MemStorage.getUser
  rw [h]
  simp only
  by_cases h1 : (MemStorage.getVerificationScore s id).score ≥ 70 ∧ a.status ≠ "verified"
  · rw [if_pos h1]
    have hget2 :=
      MemStorage.updateArticleTruthScore_get_self
        (MemStorage.updateArticleStatus_get_self h "verified")
        (MemStorage.getVerificationScore s id).score
    split
    · rw [MemStorage.logTokenAward_articles, hget2]
      simp [h1.1]
    · rw [hget2]
      simp [h1.1]
  · rw [if_neg h1]
    by_cases h2 : (MemStorage.getVerificationScore s id).score ≤ 30 ∧ a.status ≠ "disproven"
    · rw [if_pos h2]
      have h70 : ¬ (MemStorage.getVerificationScore s id).score ≥ 70 := by omega
      have hget2 :=
        MemStorage.updateArticleTruthScore_get_self
          (MemStorage.updateArticleStatus_get_self h "disproven")
          (MemStorage.getVerificationScore s id).score
      rw [hget2]
      simp [h70, h2.1]
    · rw [if_neg h2]
      rw [MemStorage.updateArticleTruthScore_get_self h
        (MemStorage.getVerificationScore s id).score]
      push_neg at h1 h2
      by_cases h70 : (MemStorage.getVerificationScore s id).score ≥ 70
      · simp [h70, h1 h70]
      · by_cases h30 : (MemStorage.getVerificationScore s id).score ≤ 30
        · simp [h70, h30, h2 h30]
        · simp [h70, h30]

/-- When neither threshold branch fires, the evaluation touches no user
balance and no ledger entry. -/
theorem verifyTruth_users_stable {s : MemStorage} {id : Nat} {a : Article}
    (h : mapGet s.articles id = some a)
    (h1 : ¬ ((MemStorage.getVerificationScore s id).score ≥ 70 ∧ a.status ≠ "verified"))
    (h2 : ¬ ((MemStorage.getVerificationScore s id).score ≤ 30 ∧ a.status ≠ "disproven")) :
    ((verifyTruthHandler s id).2).users = s.users ∧
      ((verifyTruthHandler s id).2).tokenAwards = s.tokenAwards := by
  unfold verifyTruthHandler MemStorage.getArticle
  rw [h]
  simp only
  rw [if_neg h1, if_neg h2]
  exact ⟨MemStorage.updateArticleTruthScore_users _ _ _,
    MemStorage.updateArticleTruthScore_tokenAwards _ _ _⟩

/-- C4: running the score-threshold evaluation twice in a row on the same
article with no verification recorded in between yields the same article
status after the second run as after the first, and the second run changes
no user's balance and no ledger entry — in particular, the author is paid
at most once across the two runs. -/
theorem evaluate_twice_idempotent (s : MemStorage) (id : Nat) :
    (mapGet ((verifyTruthHandler (verifyTruthHandler s id).2 id).2).articles id).map
        Article.status =
      (mapGet ((verifyTruthHandler s id).2).articles id).map Article.status ∧
    ((verifyTruthHandler (verifyTruthHandler s id).2 id).2).users =
      ((verifyTruthHandler s id).2).users ∧
    ((verifyTruthHandler (verifyTruthHandler s id).2 id).2).tokenAwards =
      ((verifyTruthHandler s id).2).tokenAwards := by
  cases h : mapGet s.articles id with
  | none =>
    rw [verifyTruth_none h]
    simp only
    rw [verifyTruth_none h]
    exact ⟨rfl, rfl, rfl⟩
  | some a =>
    have hverifs := verifyTruth_verifications s id
    have hscore :
        MemStorage.getVerificationScore (verifyTruthHandler s id).2 id =
          MemStorage.getVerificationScore s id :=
      MemStorage.getVerificationScore_congr hverifs id
    have hstat1 := verifyTruth_status_some h
    rcases Option.map_eq_some'.mp hstat1 with ⟨a1, ha1, ha1status⟩
    have hstat2 := verifyTruth_status_some ha1
    rw [hscore] at hstat2
    constructor
    · rw [hstat2, hstat1, ha1status]
      by_cases h70 : (MemStorage.getVerificationScore s id).score ≥ 70
      · simp [h70]
      · by_cases h30 : (MemStorage.getVerificationScore s id).score ≤ 30
        · simp [h70, h30]
        · simp [h70, h30]
    · have hcond1 :
          ¬ ((MemStorage.getVerificationScore (verifyTruthHandler s id).2 id).score ≥ 70 ∧
            a1.status ≠ "verified") := by
        rw [hscore]
        rintro ⟨h70, hne⟩
        rw [ha1status, if_pos h70] at hne
        exact hne rfl
      have hcond2 :
          ¬ ((MemStorage.getVerificationScore (verifyTruthHandler s id).2 id).score ≤ 30 ∧
            a1.status ≠ "disproven") := by
        rw [hscore]
        rintro ⟨h30, hne⟩
        have h70 : ¬ (MemStorage.getVerificationScore s id).score ≥ 70 := by omega
        rw [ha1status, if_neg h70, if_pos h30] at hne
        exact hne rfl
      exact verifyTruth_users_stable ha1 hcond1 hcond2

/-- Recording a verification leaves the referenced article's status
unchanged or sets it to `verified` or `disproven` — never anything else. -/
theorem createVerification_status_cases (s : MemStorage) (iv : InsertVerification)
    {a : Article} (h : mapGet s.articles iv.articleId = some a)
    (hid : a.id = iv.articleId) :
    (mapGet ((MemStorage.createVerification s iv).2).articles iv.articleId).map
        Article.status = some a.status ∨
    (mapGet ((MemStorage.createVerification s iv).2).articles iv.articleId).map
        Article.status = some "verified" ∨
    (mapGet ((MemStorage.createVerification s iv).2).articles iv.articleId).map
        Article.status = some "disproven" := by
  unfold MemStorage.createVerification
  simp only [h]
  rw [MemStorage.updateUserTokens_articles]
  split_ifs with h1 h2
  · refine Or.inr (Or.inl ?_)
    rw [MemStorage.updateUserTokens_articles]
    rw [hid]
    rw [MemStorage.updateArticleStatus_get_self (mapGet_mapSet_self _ _ _) "verified"]
    rfl
  · refine Or.inr (Or.inr ?_)
    rw [hid]
    rw [MemStorage.updateArticleStatus_get_self (mapGet_mapSet_self _ _ _) "disproven"]
    rfl
  · refine Or.inl ?_
    rw [hid]
    simp [mapGet_mapSet_self]

/-- Counterexample for C1: article 1 is in the terminal status `verified`
after four `disproven` verifications, and recording a fifth one — a plain
verification event, not the administrative override — moves it to the
opposite terminal status `disproven`. -/
theorem terminal_flip_cex :
    (mapGet (disproveRun 4).articles 1).map Article.status = some "verified" ∧
    (mapGet (disproveRun 5).articles 1).map Article.status = some "disproven" := by
  constructor
  · rfl
  · rfl

/-- C1 as amended: for an article whose status is terminal (not
`pending`), recording further verifications and running the
score-threshold evaluation never move the status back to `pending`; they
can, however, move it to the opposite terminal status when the opposite
threshold or score condition is met. -/
theorem terminal_never_pending (s : MemStorage) (iv : InsertVerification) (id : Nat) :
    (∀ a, mapGet s.articles iv.articleId = some a → a.id = iv.articleId →
      a.status ≠ "pending" →
      (mapGet ((MemStorage.createVerification s iv).2).articles iv.articleId).map
          Article.status ≠ some "pending") ∧
    (∀ b, mapGet s.articles id = some b → b.status ≠ "pending" →
      (mapGet ((verifyTruthHandler s id).2).articles id).map Article.status ≠
        some "pending") := by
  constructor
  · intro a ha hid hstat
    rcases createVerification_status_cases s iv ha hid with hc | hc | hc <;> rw [hc]
    · intro heq
      exact hstat (Option.some.inj heq)
    · intro heq
      exact absurd (Option.some.inj heq) (by decide)
    · intro heq
      exact absurd (Option.some.inj heq) (by decide)
  · intro b hb hstat
    rw [verifyTruth_status_some hb]
    intro heq
    have heq' := Option.some.inj heq
    split_ifs at heq' with h70 h30
    · exact absurd heq' (by decide)
    · exact absurd heq' (by decide)
    · exact hstat heq'

/-- Witness for C1 (amended): on the store whose article 1 is already
`verified`, neither a fresh `disproven` verification nor an evaluation run
can leave the article `pending`. -/
theorem terminal_never_pending_witness :
    (mapGet ((MemStorage.createVerification verifiedBase
        { articleId := 1, userId := 2, status := "disproven" }).2).articles 1).map
        Article.status ≠ some "pending" ∧
    (mapGet ((verifyTruthHandler verifiedBase 1).2).articles 1).map Article.status ≠
      some "pending" :=
  ⟨(terminal_never_pending verifiedBase
      { articleId := 1, userId := 2, status := "disproven" } 1).1
      { id := 1, authorId := 1, status := "verified", isWhistleblower := false
        verificationCount := 0, truthScore := none }
      (by decide) (by decide) (by decide),
    (terminal_never_pending verifiedBase
      { articleId := 1, userId := 2, status := "disproven" } 1).2
      { id := 1, authorId := 1, status := "verified", isWhistleblower := false
        verificationCount := 0, truthScore := none }
      (by decide) (by decide)⟩

theorem mapSet_values_of_fresh {α : Type} {m : List (Nat × α)} {k : Nat}
    (hfresh : mapGet m k = none) (v : α) :
    (mapSet m k v).map Prod.snd = m.map Prod.snd ++ [v] := by
  rw [mapSet_of_fresh hfresh]
  simp

/-- Inserting a fresh verification record appends it to the article's
verification history. -/
theorem getVerificationsForArticle_insert {s : MemStorage}
    (hfresh : mapGet s.verifications s.verificationId = none)
    (v : Verification) (aid : Nat) (hv : v.articleId = aid) :
    (List.filter (fun w => w.articleId == aid)
        ((mapSet s.verifications s.verificationId v).map Prod.snd)) =
      MemStorage.getVerificationsForArticle s aid ++ [v] := by
  rw [mapSet_values_of_fresh hfresh, List.filter_append]
  unfold MemStorage.getVerificationsForArticle
  simp [hv]

/-- Score-threshold path payment: when the evaluation fires the verified
branch and the author exists, the author is credited 10, or 15 on a
whistleblower article. -/
theorem verifyTruth_pays_author {s : MemStorage} {id : Nat} {a : Article}
    {author : User} (h : mapGet s.articles id = some a)
    (h70 : (MemStorage.getVerificationScore s id).score ≥ 70)
    (hnv : a.status ≠ "verified")
    (hauthor : mapGet s.users a.authorId = some author)
    (hid : author.id = a.authorId) :
    (mapGet ((verifyTruthHandler s id).2).users a.authorId).map User.truthTokens =
      some (author.truthTokens + (if a.isWhistleblower then 15 else 10)) := by
  unfold verifyTruthHandler MemStorage.getArticle MemStorage.getUser
  rw [h]
  simp only
  rw [if_pos ⟨h70, hnv⟩]
  have hu2 : mapGet
      ((MemStorage.updateArticleTruthScore
        (MemStorage.updateArticleStatus s id "verified").2 id
        (MemStorage.getVerificationScore s id).score).2).users a.authorId =
      some author := by
    rw [MemStorage.updateArticleTruthScore_users, MemStorage.updateArticleStatus_users]
    exact hauthor
  rw [hu2]
  simp only
  rw [hid]
  rw [MemStorage.logTokenAward_users_of_some hu2]
  rw [mapGet_mapSet_self]
  rfl

/-- Count-threshold path payment: when recording a verification takes the
verified-count branch, the author is credited a flat 10 tokens,
independent of the whistleblower flag. -/
theorem createVerification_pays_author_flat {s : MemStorage}
    {iv : InsertVerification} {a : Article} {author : User}
    (h : mapGet s.articles iv.articleId = some a)
    (hid : a.id = iv.articleId)
    (hfresh : mapGet s.verifications s.verificationId = none)
    (hcount : ((MemStorage.getVerificationsForArticle s iv.articleId).filter
        (fun v => v.status == "verified")).length +
        (if iv.status = "verified" then 1 else 0) ≥ 5)
    (hnv : a.status ≠ "verified")
    (hauthor : mapGet s.users a.authorId = some author)
    (hne : iv.userId ≠ a.authorId) :
    (mapGet ((MemStorage.createVerification s iv).2).users a.authorId).map
        User.truthTokens = some (author.truthTokens + 10) := by
  unfold MemStorage.createVerification
  simp only [h]
  rw [hid]
  unfold MemStorage.getVerificationsForArticle
  simp only
  rw [getVerificationsForArticle_insert hfresh _ iv.articleId rfl]
  have hsingle : (List.filter (fun v => v.status == "verified")
      [({ id := s.verificationId, articleId := iv.articleId, userId := iv.userId
          status := iv.status } : Verification)]).length =
      if iv.status = "verified" then 1 else 0 := by
    by_cases hsv : iv.status = "verified"
    · have hb : (iv.status == "verified") = true := by simpa using hsv
      simp [List.filter, hb, hsv]
    · have hb : (iv.status == "verified") = false := by simpa using hsv
      simp [List.filter, hb, hsv]
  have hcond : (List.filter (fun v => v.status == "verified")
      (MemStorage.getVerificationsForArticle s iv.articleId ++
        [({ id := s.verificationId, articleId := iv.articleId, userId := iv.userId
            status := iv.status } : Verification)])).length ≥ 5 := by
    rw [List.filter_append, List.length_append, hsingle]
    exact hcount
  rw [if_pos ⟨hcond, hnv⟩]
  rw [MemStorage.updateUserTokens_get_ne 5 (Ne.symm hne)]
  rw [MemStorage.updateUserTokens_get_self_map]
  rw [MemStorage.updateArticleStatus_users]
  rw [show ({ s with
      verificationId := s.verificationId + 1
      verifications :=
        mapSet s.verifications s.verificationId
          { id := s.verificationId, articleId := iv.articleId
            userId := iv.userId, status := iv.status }
      articles :=
        mapSet s.articles iv.articleId
          { a with verificationCount := a.verificationCount + 1 } } : MemStorage).users =
    s.users from rfl]
  rw [hauthor]
  rfl

/-- Counterexample for C6: the whistleblower article transitions from
`pending` to `verified` on the fifth count-path verification, yet its
author is credited 10 tokens, not the 15 the claim requires for
`isWhistleblower = true`. -/
theorem count_path_whistleblower_cex :
    (mapGet (verifyRunWb 4).articles 1).map Article.status = some "pending" ∧
    (mapGet (verifyRunWb 5).articles 1).map Article.status = some "verified" ∧
    (mapGet (verifyRunWb 5).articles 1).map Article.isWhistleblower = some true ∧
    (mapGet (verifyRunWb 5).users 1).map User.truthTokens = some 10 ∧
    (10 : Nat) ≠ 15 :=
  ⟨rfl, rfl, rfl, rfl, by decide⟩

/-- C6 as amended: when an article transitions to `verified` through the
score-threshold path, the author is credited 10 tokens, or 15 if
`isWhistleblower`; when it transitions through the count-threshold path,
the author is credited a flat 10 tokens regardless of the flag. -/
theorem verified_transition_rewards (s : MemStorage) (id : Nat)
    (iv : InsertVerification) :
    (∀ a author, mapGet s.articles id = some a →
      (MemStorage.getVerificationScore s id).score ≥ 70 →
      a.status ≠ "verified" →
      mapGet s.users a.authorId = some author → author.id = a.authorId →
      (mapGet ((verifyTruthHandler s id).2).users a.authorId).map User.truthTokens =
        some (author.truthTokens + (if a.isWhistleblower then 15 else 10))) ∧
    (∀ a author, mapGet s.articles iv.articleId = some a → a.id = iv.articleId →
      mapGet s.verifications s.verificationId = none →
      ((MemStorage.getVerificationsForArticle s iv.articleId).filter
          (fun v => v.status == "verified")).length +
        (if iv.status = "verified" then 1 else 0) ≥ 5 →
      a.status ≠ "verified" →
      mapGet s.users a.authorId = some author → iv.userId ≠ a.authorId →
      (mapGet ((MemStorage.createVerification s iv).2).users a.authorId).map
          User.truthTokens = some (author.truthTokens + 10)) :=
  ⟨fun _ _ h h70 hnv hauthor hid =>
      verifyTruth_pays_author h h70 hnv hauthor hid,
    fun _ _ h hid hfresh hcount hnv hauthor hne =>
      createVerification_pays_author_flat h hid hfresh hcount hnv hauthor hne⟩

/-- Witness for C6 (amended): with three `verified` votes the pending demo
article scores 100 and the evaluation credits author 1 with 10 tokens;
with a fourth pre-existing vote, the fifth count-path verification also
credits author 1 with 10 tokens. -/
theorem verified_transition_rewards_witness :
    (mapGet ((verifyTruthHandler (verifyRun 3) 1).2).users 1).map User.truthTokens =
      some 10 ∧
    (mapGet ((MemStorage.createVerification (verifyRun 4)
        { articleId := 1, userId := 2, status := "verified" }).2).users 1).map
        User.truthTokens = some 10 :=
  ⟨(verified_transition_rewards (verifyRun 3) 1
        { articleId := 1, userId := 2, status := "verified" }).1
      { id := 1, authorId := 1, status := "pending", isWhistleblower := false
        verificationCount := 3, truthScore := none }
      { id := 1, role := "journalist", truthTokens := 0, ensAddress := none }
      (by decide)
      (by rw [getVerificationScore_score_closed]; decide)
      (by decide) (by decide) (by decide),
    (verified_transition_rewards (verifyRun 4) 1
        { articleId := 1, userId := 2, status := "verified" }).2
      { id := 1, authorId := 1, status := "pending", isWhistleblower := false
        verificationCount := 4, truthScore := none }
      { id := 1, role := "journalist", truthTokens := 0, ensAddress := none }
      (by decide) (by decide) (by decide) (by decide) (by decide) (by decide)
      (by decide)⟩

theorem createVerification_verifications (s : MemStorage) (iv : InsertVerification) :
    ((MemStorage.createVerification s iv).2).verifications =
      mapSet s.verifications s.verificationId
        { id := s.verificationId, articleId := iv.articleId, userId := iv.userId
          status := iv.status } := by
  unfold MemStorage.createVerification
  simp only
  rw [MemStorage.updateUserTokens_verifications]
  split
  · rfl
  · split_ifs
    · rw [MemStorage.updateUserTokens_verifications,
        MemStorage.updateArticleStatus_verifications]
    · rw [MemStorage.updateArticleStatus_verifications]
    · rfl

theorem createVerification_verificationId (s : MemStorage) (iv : InsertVerification) :
    ((MemStorage.createVerification s iv).2).verificationId =
      s.verificationId + 1 := by
  unfold MemStorage.createVerification
  simp only
  rw [(MemStorage.updateUserTokens_ids _ _ _).2]
  split
  · rfl
  · split_ifs
    · rw [(MemStorage.updateUserTokens_ids _ _ _).2]
      unfold MemStorage.updateArticleStatus
      cases mapGet _ _ <;> rfl
    · unfold MemStorage.updateArticleStatus
      cases mapGet _ _ <;> rfl
    · rfl

/-- When the verified-count branch fires — note: no assumption at all about
the disproven count, since the verified condition is checked first — the
article is stored `verified` with the bumped counter, and the user map is
the author-then-verifier reward chain. -/
theorem createVerification_threshold_fires {s : MemStorage}
    {iv : InsertVerification} {a : Article}
    (h : mapGet s.articles iv.articleId = some a) (hid : a.id = iv.articleId)
    (hfresh : mapGet s.verifications s.verificationId = none)
    (hcount : ((MemStorage.getVerificationsForArticle s iv.articleId).filter
        (fun v => v.status == "verified")).length +
        (if iv.status = "verified" then 1 else 0) ≥ 5)
    (hnv : a.status ≠ "verified") :
    mapGet ((MemStorage.createVerification s iv).2).articles iv.articleId =
      some { a with verificationCount := a.verificationCount + 1
                    status := "verified" } ∧
    ((MemStorage.createVerification s iv).2).users =
      ((MemStorage.updateUserTokens
        (MemStorage.updateUserTokens s a.authorId 10).2 iv.userId 5).2).users := by
  unfold MemStorage.createVerification
  simp only [h]
  rw [hid]
  unfold MemStorage.getVerificationsForArticle
  simp only
  rw [getVerificationsForArticle_insert hfresh _ iv.articleId rfl]
  have hsingle : (List.filter (fun v => v.status == "verified")
      [({ id := s.verificationId, articleId := iv.articleId, userId := iv.userId
          status := iv.status } : Verification)]).length =
      if iv.status = "verified" then 1 else 0 := by
    by_cases hsv : iv.status = "verified"
    · have hb : (iv.status == "verified") = true := by simpa using hsv
      simp [List.filter, hb, hsv]
    · have hb : (iv.status == "verified") = false := by simpa using hsv
      simp [List.filter, hb, hsv]
  have hcond : (List.filter (fun v => v.status == "verified")
      (MemStorage.getVerificationsForArticle s iv.articleId ++
        [({ id := s.verificationId, articleId := iv.articleId, userId := iv.userId
            status := iv.status } : Verification)])).length ≥ 5 := by
    rw [List.filter_append, List.length_append, hsingle]
    exact hcount
  rw [if_pos ⟨hcond, hnv⟩]
  constructor
  · rw [MemStorage.updateUserTokens_articles, MemStorage.updateUserTokens_articles]
    rw [MemStorage.updateArticleStatus_get_self (mapGet_mapSet_self _ _ _) "verified"]
  · apply MemStorage.updateUserTokens_users_congr
    apply MemStorage.updateUserTokens_users_congr
    rw [MemStorage.updateArticleStatus_users]

/-- When neither count branch fires, the article just gets its counter
bumped and only the verifier reward touches the user map. -/
theorem createVerification_no_threshold {s : MemStorage}
    {iv : InsertVerification} {a : Article}
    (h : mapGet s.articles iv.articleId = some a) (hid : a.id = iv.articleId)
    (hfresh : mapGet s.verifications s.verificationId = none)
    (hW : ¬ (((MemStorage.getVerificationsForArticle s iv.articleId).filter
        (fun v => v.status == "verified")).length +
        (if iv.status = "verified" then 1 else 0) ≥ 5 ∧ a.status ≠ "verified"))
    (hD : ¬ (((MemStorage.getVerificationsForArticle s iv.articleId).filter
        (fun v => v.status == "disproven")).length +
        (if iv.status = "disproven" then 1 else 0) ≥ 5 ∧ a.status ≠ "disproven")) :
    mapGet ((MemStorage.createVerification s iv).2).articles iv.articleId =
      some { a with verificationCount := a.verificationCount + 1 } ∧
    ((MemStorage.createVerification s iv).2).users =
      ((MemStorage.updateUserTokens s iv.userId 5).2).users := by
  unfold MemStorage.createVerification
  simp only [h]
  rw [hid]
  unfold MemStorage.getVerificationsForArticle
  simp only
  rw [getVerificationsForArticle_insert hfresh _ iv.articleId rfl]
  have hsingleW : (List.filter (fun v => v.status == "verified")
      [({ id := s.verificationId, articleId := iv.articleId, userId := iv.userId
          status := iv.status } : Verification)]).length =
      if iv.status = "verified" then 1 else 0 := by
    by_cases hsv : iv.status = "verified"
    · have hb : (iv.status == "verified") = true := by simpa using hsv
      simp [List.filter, hb, hsv]
    · have hb : (iv.status == "verified") = false := by simpa using hsv
      simp [List.filter, hb, hsv]
  have hsingleD : (List.filter (fun v => v.status == "disproven")
      [({ id := s.verificationId, articleId := iv.articleId, userId := iv.userId
          status := iv.status } : Verification)]).length =
      if iv.status = "disproven" then 1 else 0 := by
    by_cases hsv : iv.status = "disproven"
    · have hb : (iv.status == "disproven") = true := by simpa using hsv
      simp [List.filter, hb, hsv]
    · have hb : (iv.status == "disproven") = false := by simpa using hsv
      simp [List.filter, hb, hsv]
  have hcondW : ¬ ((List.filter (fun v => v.status == "verified")
      (MemStorage.getVerificationsForArticle s iv.articleId ++
        [({ id := s.verificationId, articleId := iv.articleId, userId := iv.userId
            status := iv.status } : Verification)])).length ≥ 5 ∧
      a.status ≠ "verified") := by
    rw [List.filter_append, List.length_append, hsingleW]
    exact hW
  have hcondD : ¬ ((List.filter (fun v => v.status == "disproven")
      (MemStorage.getVerificationsForArticle s iv.articleId ++
        [({ id := s.verificationId, articleId := iv.articleId, userId := iv.userId
            status := iv.status } : Verification)])).length ≥ 5 ∧
      a.status ≠ "disproven") := by
    rw [List.filter_append, List.length_append, hsingleD]
    exact hD
  rw [if_neg hcondW, if_neg hcondD]
  constructor
  · rw [MemStorage.updateUserTokens_articles]
    exact mapGet_mapSet_self _ _ _
  · apply MemStorage.updateUserTokens_users_congr
    rfl

theorem VRunInv_step {aid author verifier T V k : Nat} {s : MemStorage}
    (hinv : VRunInv aid author verifier T V k s) :
    VRunInv aid author verifier T V (k + 1)
      (MemStorage.createVerification s
        { articleId := aid, userId := verifier, status := "verified" }).2 := by
  obtain ⟨hAV, ⟨a, ha, haid, hauth, hstat⟩, hlen, hall, hfresh, ⟨uA, huA, htA⟩,
    ⟨uV, huV, htV⟩⟩ := hinv
  have hfresh1 : mapGet s.verifications s.verificationId = none :=
    mapGet_eq_none_of_keys_lt hfresh le_rfl
  have hVA : verifier ≠ author := Ne.symm hAV
  -- facts shared by both branches
  have hverifs' : MemStorage.getVerificationsForArticle
      (MemStorage.createVerification s
        { articleId := aid, userId := verifier, status := "verified" }).2 aid =
      MemStorage.getVerificationsForArticle s aid ++
        [({ id := s.verificationId, articleId := aid, userId := verifier
            status := "verified" } : Verification)] := by
    have hv := createVerification_verifications s
      { articleId := aid, userId := verifier, status := "verified" }
    unfold MemStorage.getVerificationsForArticle
    rw [hv]
    exact getVerificationsForArticle_insert hfresh1 _ aid rfl
  have hfresh' : ∀ p ∈ ((MemStorage.createVerification s
      { articleId := aid, userId := verifier, status := "verified" }).2).verifications,
      p.1 < ((MemStorage.createVerification s
        { articleId := aid, userId := verifier, status := "verified" }).2).verificationId := by
    rw [createVerification_verifications, createVerification_verificationId]
    intro p hp
    rcases mem_mapSet hp with hp' | hp'
    · rw [hp']
      omega
    · have := hfresh p hp'
      omega
  have hall' : ∀ v ∈ MemStorage.getVerificationsForArticle
      (MemStorage.createVerification s
        { articleId := aid, userId := verifier, status := "verified" }).2 aid,
      v.status = "verified" := by
    rw [hverifs']
    intro v hv
    rcases List.mem_append.mp hv with hv' | hv'
    · exact hall v hv'
    · rcases List.mem_singleton.mp hv' with rfl
      rfl
  have hlen' : (MemStorage.getVerificationsForArticle
      (MemStorage.createVerification s
        { articleId := aid, userId := verifier, status := "verified" }).2 aid).length =
      k + 1 := by
    rw [hverifs', List.length_append, hlen]
    rfl
  by_cases hk4 : k = 4
  · -- the threshold fires exactly here
    subst hk4
    have hnv : a.status ≠ "verified" := by
      rw [hstat]
      decide
    have hcount : ((MemStorage.getVerificationsForArticle s aid).filter
        (fun v => v.status == "verified")).length +
        (if ("verified" : String) = "verified" then 1 else 0) ≥ 5 := by
      rw [List.filter_eq_self.mpr (fun v hv => by rw [hall v hv]; rfl), hlen]
      simp
    obtain ⟨hart', husers'⟩ :=
      @createVerification_threshold_fires s
        { articleId := aid, userId := verifier, status := "verified" } a
        ha haid hfresh1 hcount hnv
    refine ⟨hAV, ⟨_, hart', by rw [haid], hauth, by simp⟩, hlen', hall', hfresh', ?_, ?_⟩
    · refine ⟨{ uA with truthTokens := uA.truthTokens + 10 }, ?_, ?_⟩
      · rw [husers', hauth]
        rw [MemStorage.updateUserTokens_get_ne 5 hAV]
        exact MemStorage.updateUserTokens_get_self huA 10
      · simp only
        rw [htA]
        simp
    · refine ⟨{ uV with truthTokens := uV.truthTokens + 5 }, ?_, ?_⟩
      · rw [husers']
        rw [MemStorage.updateUserTokens_get_self_map]
        simp only
        rw [hauth]
        rw [MemStorage.updateUserTokens_get_ne 10 hVA]
        rw [huV]
        rfl
      · simp only
        rw [htV]
  · -- no branch fires: below the threshold or already verified
    have hW : ¬ (((MemStorage.getVerificationsForArticle s aid).filter
        (fun v => v.status == "verified")).length +
        (if ("verified" : String) = "verified" then 1 else 0) ≥ 5 ∧
        a.status ≠ "verified") := by
      rw [List.filter_eq_self.mpr (fun v hv => by rw [hall v hv]; rfl), hlen]
      by_cases hk5 : 5 ≤ k
      · rintro ⟨-, hne⟩
        rw [hstat, if_pos hk5] at hne
        exact hne rfl
      · rintro ⟨hge, -⟩
        simp at hge
        omega
    have hD : ¬ (((MemStorage.getVerificationsForArticle s aid).filter
        (fun v => v.status == "disproven")).length +
        (if ("verified" : String) = "disproven" then 1 else 0) ≥ 5 ∧
        a.status ≠ "disproven") := by
      rw [List.filter_eq_nil_iff.mpr (fun v hv => by rw [hall v hv]; decide)]
      rintro ⟨hge, -⟩
      simp at hge
    obtain ⟨hart', husers'⟩ :=
      @createVerification_no_threshold s
        { articleId := aid, userId := verifier, status := "verified" } a
        ha haid hfresh1 hW hD
    refine ⟨hAV, ⟨_, hart', by rw [haid], hauth, ?_⟩, hlen', hall', hfresh', ?_, ?_⟩
    · simp only
      rw [hstat]
      by_cases hk5 : 5 ≤ k
      · rw [if_pos hk5, if_pos (by omega)]
      · rw [if_neg hk5, if_neg (by omega)]
    · refine ⟨uA, ?_, ?_⟩
      · rw [husers', MemStorage.updateUserTokens_get_ne 5 hAV]
        exact huA
      · rw [htA]
        by_cases hk5 : 5 ≤ k
        · rw [if_pos hk5, if_pos (by omega)]
        · rw [if_neg hk5, if_neg (by omega)]
    · refine ⟨{ uV with truthTokens := uV.truthTokens + 5 }, ?_, ?_⟩
      · rw [husers']
        exact MemStorage.updateUserTokens_get_self huV 5
      · simp only
        rw [htV]
        ring

theorem VRunInv_run (aid author verifier T V : Nat) (s : MemStorage)
    (hinv : VRunInv aid author verifier T V 0 s) :
    ∀ n, VRunInv aid author verifier T V n (recordVerifiedRun s aid verifier n) := by
  intro n
  induction n with
  | zero => exact hinv
  | succ n ih => exact VRunInv_step ih

/-- C3: starting from a `pending` article with no verification history,
recording `verified` verifications one at a time (by a verifier distinct
from the author) flips the article to `verified` exactly when the count
reaches 5 and pays the author's 10-token reward exactly at that moment:
for every n the status is `pending` below 5 and `verified` from 5 on, and
the author's balance carries exactly one 10-token payment for all n ≥ 5
(so the 6th record changes neither), while the verifier collects 5 per
record.  Moreover (second conjunct) the verified-count condition is
checked before the disproven-count condition: whenever it holds, the
record sets the article `verified` with no assumption on the disproven
count. -/
theorem count_threshold_run (s : MemStorage) (aid author verifier T V : Nat)
    (hinv : VRunInv aid author verifier T V 0 s) :
    (∀ n,
      (mapGet (recordVerifiedRun s aid verifier n).articles aid).map Article.status =
        some (if 5 ≤ n then "verified" else "pending") ∧
      (mapGet (recordVerifiedRun s aid verifier n).users author).map User.truthTokens =
        some (T + (if 5 ≤ n then 10 else 0)) ∧
      (mapGet (recordVerifiedRun s aid verifier n).users verifier).map User.truthTokens =
        some (V + 5 * n)) ∧
    (∀ (s' : MemStorage) (iv : InsertVerification) (a : Article),
      mapGet s'.articles iv.articleId = some a → a.id = iv.articleId →
      mapGet s'.verifications s'.verificationId = none →
      ((MemStorage.getVerificationsForArticle s' iv.articleId).filter
          (fun v => v.status == "verified")).length +
        (if iv.status = "verified" then 1 else 0) ≥ 5 →
      a.status ≠ "verified" →
      (mapGet ((MemStorage.createVerification s' iv).2).articles iv.articleId).map
          Article.status = some "verified") := by
  constructor
  · intro n
    obtain ⟨-, ⟨a, ha, -, -, hstat⟩, -, -, -, ⟨uA, huA, htA⟩, ⟨uV, huV, htV⟩⟩ :=
      VRunInv_run aid author verifier T V s hinv n
    refine ⟨?_, ?_, ?_⟩
    · rw [ha]
      simp [hstat]
    · rw [huA]
      simp [htA]
    · rw [huV]
      simp [htV]
  · intro s' iv a h hid hfr hcount hnv
    rw [(createVerification_threshold_fires h hid hfr hcount hnv).1]
    rfl

/-- Witness for C3: on the demo store (author 1, verifier 2, both starting
at 0 tokens), 6 `verified` records leave the article `verified`, the
author at exactly 10 tokens, the verifier at 30; and on `ordStore`
(5 `verified` and 4 `disproven` records, status reset to `pending`) a
fifth `disproven` record still sets the article `verified` because the
verified-count condition is evaluated first. -/
theorem count_threshold_run_witness :
    ((mapGet (recordVerifiedRun demoStore 1 2 6).articles 1).map Article.status =
        some (if 5 ≤ 6 then "verified" else "pending") ∧
      (mapGet (recordVerifiedRun demoStore 1 2 6).users 1).map User.truthTokens =
        some (0 + (if 5 ≤ 6 then 10 else 0)) ∧
      (mapGet (recordVerifiedRun demoStore 1 2 6).users 2).map User.truthTokens =
        some (0 + 5 * 6)) ∧
    (mapGet ((MemStorage.createVerification ordStore
        { articleId := 1, userId := 2, status := "disproven" }).2).articles 1).map
        Article.status = some "verified" :=
  ⟨(count_threshold_run demoStore 1 1 2 0 0
      ⟨by decide,
        ⟨{ id := 1, authorId := 1, status := "pending", isWhistleblower := false
           verificationCount := 0, truthScore := none },
          by decide, by decide, by decide, by decide⟩,
        by decide, by decide, by decide,
        ⟨{ id := 1, role := "journalist", truthTokens := 0, ensAddress := none },
          by decide, by decide⟩,
        ⟨{ id := 2, role := "publisher", truthTokens := 0, ensAddress := none },
          by decide, by decide⟩⟩).1 6,
    (count_threshold_run demoStore 1 1 2 0 0
      ⟨by decide,
        ⟨{ id := 1, authorId := 1, status := "pending", isWhistleblower := false
           verificationCount := 0, truthScore := none },
          by decide, by decide, by decide, by decide⟩,
        by decide, by decide, by decide,
        ⟨{ id := 1, role := "journalist", truthTokens := 0, ensAddress := none },
          by decide, by decide⟩,
        ⟨{ id := 2, role := "publisher", truthTokens := 0, ensAddress := none },
          by decide, by decide⟩⟩).2 ordStore
      { articleId := 1, userId := 2, status := "disproven" }
      { id := 1, authorId := 1, status := "pending", isWhistleblower := false
        verificationCount := 9, truthScore := none }
      (by decide) (by decide) (by decide) (by decide) (by decide)⟩

theorem mapSet_mapSet {α : Type} (m : List (Nat × α)) (k : Nat) (v v' : α) :
    mapSet (mapSet m k v) k v' = mapSet m k v' := by
  induction m with
  | nil => simp [mapSet]
  | cons p rest ih =>
    obtain ⟨k₀, v₀⟩ := p
    by_cases hk : k₀ = k
    · subst hk
      simp [mapSet]
    · simp [mapSet, hk, ih]

theorem MemStorage.updateArticleStatus_ids (s : MemStorage) (id : Nat) (st : String) :
    ((MemStorage.updateArticleStatus s id st).2).articleId = s.articleId ∧
      ((MemStorage.updateArticleStatus s id st).2).verificationId = s.verificationId := by
  unfold MemStorage.updateArticleStatus
  cases mapGet s.articles id <;> simp

theorem MemStorage.updateArticleTruthScore_ids (s : MemStorage) (id score : Nat) :
    ((MemStorage.updateArticleTruthScore s id score).2).articleId = s.articleId ∧
      ((MemStorage.updateArticleTruthScore s id score).2).verificationId =
        s.verificationId := by
  unfold MemStorage.updateArticleTruthScore
  cases mapGet s.articles id <;> simp

theorem MemStorage.logTokenAward_ids (s : MemStorage) (uid amt : Nat) (r : String)
    (tx : Option String) :
    (MemStorage.logTokenAward s uid amt r tx).articleId = s.articleId ∧
      (MemStorage.logTokenAward s uid amt r tx).verificationId = s.verificationId := by
  unfold MemStorage.logTokenAward
  exact MemStorage.updateUserTokens_ids _ _ _

theorem MemStorage.createUser_store (s : MemStorage) (iu : InsertUser) :
    ((MemStorage.createUser s iu).2).articles = s.articles ∧
      ((MemStorage.createUser s iu).2).verifications = s.verifications ∧
      ((MemStorage.createUser s iu).2).articleId = s.articleId ∧
      ((MemStorage.createUser s iu).2).verificationId = s.verificationId :=
  ⟨rfl, rfl, rfl, rfl⟩

theorem MemStorage.createEvidence_store (s : MemStorage) (ie : InsertEvidence) :
    ((MemStorage.createEvidence s ie).2).articles = s.articles ∧
      ((MemStorage.createEvidence s ie).2).verifications = s.verifications ∧
      ((MemStorage.createEvidence s ie).2).articleId = s.articleId ∧
      ((MemStorage.createEvidence s ie).2).verificationId = s.verificationId := by
  unfold MemStorage.createEvidence
  simp only
  refine ⟨?_, ?_, ?_, ?_⟩
  · rw [MemStorage.updateUserTokens_articles]
  · rw [MemStorage.updateUserTokens_verifications]
  · rw [(MemStorage.updateUserTokens_ids _ _ _).1]
  · rw [(MemStorage.updateUserTokens_ids _ _ _).2]

theorem createVerification_articleId (s : MemStorage) (iv : InsertVerification) :
    ((MemStorage.createVerification s iv).2).articleId = s.articleId := by
  unfold MemStorage.createVerification
  simp only
  rw [(MemStorage.updateUserTokens_ids _ _ _).1]
  split
  · rfl
  · split_ifs
    · rw [(MemStorage.updateUserTokens_ids _ _ _).1,
        (MemStorage.updateArticleStatus_ids _ _ _).1]
    · rw [(MemStorage.updateArticleStatus_ids _ _ _).1]
    · rfl

/-- The articles map after recording a verification for an existing,
key-consistent article: the stored record keeps its identity and gets its
counter bumped; only the status may additionally change. -/
theorem createVerification_articles_some {s : MemStorage}
    {iv : InsertVerification} {a : Article}
    (h : mapGet s.articles iv.articleId = some a) (hid : a.id = iv.articleId) :
    ∃ st, ((MemStorage.createVerification s iv).2).articles =
      mapSet s.articles iv.articleId
        { a with verificationCount := a.verificationCount + 1, status := st } := by
  unfold MemStorage.createVerification
  simp only [h]
  rw [hid]
  rw [MemStorage.updateUserTokens_articles]
  split_ifs
  · refine ⟨"verified", ?_⟩
    rw [MemStorage.updateUserTokens_articles]
    rw [MemStorage.updateArticleStatus_some (mapGet_mapSet_self _ _ _) "verified"]
    simp only
    exact mapSet_mapSet _ _ _ _
  · refine ⟨"disproven", ?_⟩
    rw [MemStorage.updateArticleStatus_some (mapGet_mapSet_self _ _ _) "disproven"]
    simp only
    exact mapSet_mapSet _ _ _ _
  · exact ⟨a.status, rfl⟩

theorem MemStorage.updateArticleStatus_articleId (s : MemStorage) (id : Nat)
    (st : String) :
    ((MemStorage.updateArticleStatus s id st).2).articleId = s.articleId :=
  (MemStorage.updateArticleStatus_ids s id st).1

theorem MemStorage.updateArticleStatus_verificationId (s : MemStorage) (id : Nat)
    (st : String) :
    ((MemStorage.updateArticleStatus s id st).2).verificationId = s.verificationId :=
  (MemStorage.updateArticleStatus_ids s id st).2

theorem MemStorage.updateArticleTruthScore_articleId (s : MemStorage)
    (id score : Nat) :
    ((MemStorage.updateArticleTruthScore s id score).2).articleId = s.articleId :=
  (MemStorage.updateArticleTruthScore_ids s id score).1

theorem MemStorage.updateArticleTruthScore_verificationId (s : MemStorage)
    (id score : Nat) :
    ((MemStorage.updateArticleTruthScore s id score).2).verificationId =
      s.verificationId :=
  (MemStorage.updateArticleTruthScore_ids s id score).2

theorem MemStorage.logTokenAward_articleId (s : MemStorage) (uid amt : Nat)
    (r : String) (tx : Option String) :
    (MemStorage.logTokenAward s uid amt r tx).articleId = s.articleId :=
  (MemStorage.logTokenAward_ids s uid amt r tx).1

theorem MemStorage.logTokenAward_verificationId (s : MemStorage) (uid amt : Nat)
    (r : String) (tx : Option String) :
    (MemStorage.logTokenAward s uid amt r tx).verificationId = s.verificationId :=
  (MemStorage.logTokenAward_ids s uid amt r tx).2

theorem verifyTruth_articleId (s : MemStorage) (id : Nat) :
    ((verifyTruthHandler s id).2).articleId = s.articleId := by
  unfold verifyTruthHandler MemStorage.getArticle MemStorage.getUser
  cases h : mapGet s.articles id
  · rfl
  · simp only
    split_ifs <;>
      first
        | (split <;>
            simp [MemStorage.logTokenAward_articleId,
              MemStorage.updateArticleTruthScore_articleId,
              MemStorage.updateArticleStatus_articleId])
        | simp [MemStorage.logTokenAward_articleId,
            MemStorage.updateArticleTruthScore_articleId,
            MemStorage.updateArticleStatus_articleId]

theorem verifyTruth_verificationId (s : MemStorage) (id : Nat) :
    ((verifyTruthHandler s id).2).verificationId = s.verificationId := by
  unfold verifyTruthHandler MemStorage.getArticle MemStorage.getUser
  cases h : mapGet s.articles id
  · rfl
  · simp only
    split_ifs <;>
      first
        | (split <;>
            simp [MemStorage.logTokenAward_verificationId,
              MemStorage.updateArticleTruthScore_verificationId,
              MemStorage.updateArticleStatus_verificationId])
        | simp [MemStorage.logTokenAward_verificationId,
            MemStorage.updateArticleTruthScore_verificationId,
            MemStorage.updateArticleStatus_verificationId]

/-- The evaluation either leaves the articles map untouched or replaces
the evaluated article with a record of the same identity and the same
verification counter (only status and truth score change). -/
theorem verifyTruth_articles_char (s : MemStorage) (id : Nat) :
    ((verifyTruthHandler s id).2).articles = s.articles ∨
    ∃ a a', mapGet s.articles id = some a ∧
      a'.id = a.id ∧ a'.verificationCount = a.verificationCount ∧
      ((verifyTruthHandler s id).2).articles = mapSet s.articles id a' := by
  unfold verifyTruthHandler MemStorage.getArticle MemStorage.getUser
  cases h : mapGet s.articles id with
  | none => exact Or.inl rfl
  | some a =>
    simp only
    split_ifs
    · right
      refine ⟨a,
        { a with
            status :=
              if (MemStorage.getVerificationScore s id).score ≥ 70 then "verified"
              else if (MemStorage.getVerificationScore s id).score ≤ 30 then
                "disproven"
              else "verified"
            truthScore := some (MemStorage.getVerificationScore s id).score },
        rfl, rfl, rfl, ?_⟩
      split
      · rw [MemStorage.logTokenAward_articles]
        rw [MemStorage.updateArticleTruthScore_some
          (MemStorage.updateArticleStatus_get_self h "verified") _]
        simp only
        rw [MemStorage.updateArticleStatus_some h "verified"]
        simp only
        exact mapSet_mapSet _ _ _ _
      · rw [MemStorage.updateArticleTruthScore_some
          (MemStorage.updateArticleStatus_get_self h "verified") _]
        simp only
        rw [MemStorage.updateArticleStatus_some h "verified"]
        simp only
        exact mapSet_mapSet _ _ _ _
    · right
      refine ⟨a,
        { a with
            status :=
              if (MemStorage.getVerificationScore s id).score ≥ 70 then "verified"
              else if (MemStorage.getVerificationScore s id).score ≤ 30 then
                "disproven"
              else "verified"
            truthScore := some (MemStorage.getVerificationScore s id).score },
        rfl, rfl, rfl, ?_⟩
      split
      · rw [MemStorage.logTokenAward_articles]
        rw [MemStorage.updateArticleTruthScore_some
          (MemStorage.updateArticleStatus_get_self h "verified") _]
        simp only
        rw [MemStorage.updateArticleStatus_some h "verified"]
        simp only
        exact mapSet_mapSet _ _ _ _
      · rw [MemStorage.updateArticleTruthScore_some
          (MemStorage.updateArticleStatus_get_self h "verified") _]
        simp only
        rw [MemStorage.updateArticleStatus_some h "verified"]
        simp only
        exact mapSet_mapSet _ _ _ _
    · right
      refine ⟨a,
        { a with
            status :=
              if (MemStorage.getVerificationScore s id).score ≥ 70 then "verified"
              else if (MemStorage.getVerificationScore s id).score ≤ 30 then
                "disproven"
              else "disproven"
            truthScore := some (MemStorage.getVerificationScore s id).score },
        rfl, rfl, rfl, ?_⟩
      rw [MemStorage.updateArticleTruthScore_some
        (MemStorage.updateArticleStatus_get_self h "disproven") _]
      simp only
      rw [MemStorage.updateArticleStatus_some h "disproven"]
      simp only
      exact mapSet_mapSet _ _ _ _
    · right
      refine ⟨a,
        { a with
            status :=
              if (MemStorage.getVerificationScore s id).score ≥ 70 then "verified"
              else if (MemStorage.getVerificationScore s id).score ≤ 30 then
                "disproven"
              else a.status
            truthScore := some (MemStorage.getVerificationScore s id).score },
        rfl, rfl, rfl, ?_⟩
      rw [MemStorage.updateArticleTruthScore_some h _]

theorem mem_keys_mapSet {α : Type} {m : List (Nat × α)} {k x : Nat} {v : α}
    (h : x ∈ (mapSet m k v).map Prod.fst) : x = k ∨ x ∈ m.map Prod.fst := by
  rcases List.mem_map.mp h with ⟨p, hp, rfl⟩
  rcases mem_mapSet hp with rfl | hp'
  · exact Or.inl rfl
  · exact Or.inr (List.mem_map_of_mem _ hp')

theorem mapSet_keys_nodup {α : Type} {m : List (Nat × α)} {k : Nat} {v : α}
    (hnd : (m.map Prod.fst).Nodup) : ((mapSet m k v).map Prod.fst).Nodup := by
  induction m with
  | nil => simp [mapSet]
  | cons p rest ih =>
    obtain ⟨k₀, v₀⟩ := p
    obtain ⟨hnotin, hndtail⟩ := List.nodup_cons.mp hnd
    by_cases hk : k₀ = k
    · subst hk
      simpa [mapSet] using hnd
    · simp only [mapSet, if_neg hk, List.map_cons]
      refine List.nodup_cons.mpr ⟨?_, ih hndtail⟩
      intro hmem
      rcases mem_keys_mapSet hmem with rfl | hmem'
      · exact hk rfl
      · exact hnotin hmem'

theorem mem_mapSet_nodup {α : Type} {m : List (Nat × α)} {k : Nat} {v : α}
    {p : Nat × α} (hnd : (m.map Prod.fst).Nodup) (h : p ∈ mapSet m k v) :
    p = (k, v) ∨ (p ∈ m ∧ p.1 ≠ k) := by
  induction m with
  | nil => simpa [mapSet] using h
  | cons q rest ih =>
    obtain ⟨k₀, v₀⟩ := q
    obtain ⟨hnotin, hndtail⟩ := List.nodup_cons.mp hnd
    by_cases hk : k₀ = k
    · subst hk
      simp only [mapSet, if_pos rfl] at h
      cases h with
      | head => exact Or.inl rfl
      | tail _ hmem =>
        refine Or.inr ⟨List.mem_cons_of_mem _ hmem, ?_⟩
        intro hpk
        have hkeys : p.1 ∈ rest.map Prod.fst := List.mem_map_of_mem Prod.fst hmem
        rw [hpk] at hkeys
        exact hnotin hkeys
    · simp only [mapSet, if_neg hk] at h
      cases h with
      | head => exact Or.inr ⟨List.mem_cons_self _ _, hk⟩
      | tail _ hmem =>
        rcases ih hndtail hmem with h' | ⟨h1, h2⟩
        · exact Or.inl h'
        · exact Or.inr ⟨List.mem_cons_of_mem _ h1, h2⟩

/-- No verification record can reference the article id about to be
allocated. -/
theorem no_verifs_for_new {s : MemStorage}
    (hinv2 : ∀ p ∈ s.verifications, p.2.articleId < s.articleId) :
    MemStorage.getVerificationsForArticle s s.articleId = [] := by
  unfold MemStorage.getVerificationsForArticle
  rw [List.filter_eq_nil_iff]
  intro v hv
  rcases List.mem_map.mp hv with ⟨p, hp, rfl⟩
  have := hinv2 p hp
  simp only [beq_iff_eq]
  omega

/-- Inserting a fresh verification for one article leaves every other
article's history unchanged. -/
theorem getVerificationsForArticle_insert_ne {s : MemStorage}
    (hfresh : mapGet s.verifications s.verificationId = none)
    (v : Verification) (k : Nat) (hv : v.articleId ≠ k) :
    (List.filter (fun w => w.articleId == k)
        ((mapSet s.verifications s.verificationId v).map Prod.snd)) =
      MemStorage.getVerificationsForArticle s k := by
  rw [mapSet_values_of_fresh hfresh, List.filter_append]
  have hb : (v.articleId == k) = false := by simpa using hv
  simp [List.filter, hb]
  rfl

theorem StoreInv_congr {s t : MemStorage} (ha : t.articles = s.articles)
    (hv : t.verifications = s.verifications) (hai : t.articleId = s.articleId)
    (hvi : t.verificationId = s.verificationId) (hinv : StoreInv s) : StoreInv t := by
  obtain ⟨inv0, inv1, inv2, inv3⟩ := hinv
  refine ⟨?_, ?_, ?_, ?_⟩
  · rw [ha]
    exact inv0
  · intro p hp
    rw [ha] at hp
    rw [hai]
    exact inv1 p hp
  · intro p hp
    rw [hv] at hp
    rw [hvi, hai]
    exact inv2 p hp
  · intro p hp
    rw [ha] at hp
    have h3 := inv3 p hp
    unfold MemStorage.getVerificationsForArticle at h3 ⊢
    rw [hv]
    exact h3

theorem StoreInv_init : StoreInv MemStorage.init :=
  ⟨List.nodup_nil, fun p hp => absurd hp (List.not_mem_nil p),
    fun p hp => absurd hp (List.not_mem_nil p),
    fun p hp => absurd hp (List.not_mem_nil p)⟩

theorem StoreInv_step {s s' : MemStorage} (hstep : Step s s') (hinv : StoreInv s) :
    StoreInv s' := by
  obtain ⟨inv0, inv1, inv2, inv3⟩ := hinv
  cases hstep with
  | createUser iu =>
    exact StoreInv_congr rfl rfl rfl rfl ⟨inv0, inv1, inv2, inv3⟩
  | createArticle ia =>
    refine ⟨mapSet_keys_nodup inv0, ?_, ?_, ?_⟩
    · intro p hp
      rcases mem_mapSet hp with rfl | hmem
      · exact ⟨rfl, by show s.articleId < s.articleId + 1; omega⟩
      · obtain ⟨h1, h2⟩ := inv1 p hmem
        exact ⟨h1, by show p.1 < s.articleId + 1; omega⟩
    · intro p hp
      obtain ⟨h1, h2⟩ := inv2 p hp
      exact ⟨h1, by show p.2.articleId < s.articleId + 1; omega⟩
    · intro p hp
      rcases mem_mapSet hp with rfl | hmem
      · show (0 : Nat) = _
        have hz := no_verifs_for_new (fun p hp => (inv2 p hp).2)
        unfold MemStorage.getVerificationsForArticle at hz ⊢
        rw [show ((MemStorage.createArticle s ia).2).verifications =
          s.verifications from rfl]
        rw [hz]
        rfl
      · exact inv3 p hmem
  | createEvidence ie =>
    have hcomp : ((apiCreateEvidence s ie).2).articles = s.articles ∧
        ((apiCreateEvidence s ie).2).verifications = s.verifications ∧
        ((apiCreateEvidence s ie).2).articleId = s.articleId ∧
        ((apiCreateEvidence s ie).2).verificationId = s.verificationId := by
      unfold apiCreateEvidence MemStorage.getArticle
      cases mapGet s.articles ie.articleId
      · exact ⟨rfl, rfl, rfl, rfl⟩
      · simp only
        exact MemStorage.createEvidence_store s ie
    exact StoreInv_congr hcomp.1 hcomp.2.1 hcomp.2.2.1 hcomp.2.2.2
      ⟨inv0, inv1, inv2, inv3⟩
  | rewardsAward uid amt r =>
    have hcomp : ((apiRewardsAward s uid amt r).2).articles = s.articles ∧
        ((apiRewardsAward s uid amt r).2).verifications = s.verifications ∧
        ((apiRewardsAward s uid amt r).2).articleId = s.articleId ∧
        ((apiRewardsAward s uid amt r).2).verificationId = s.verificationId := by
      unfold apiRewardsAward MemStorage.getUser
      cases mapGet s.users uid
      · exact ⟨rfl, rfl, rfl, rfl⟩
      · simp only
        exact ⟨MemStorage.logTokenAward_articles s uid amt r none,
          MemStorage.logTokenAward_verifications s uid amt r none,
          MemStorage.logTokenAward_articleId s uid amt r none,
          MemStorage.logTokenAward_verificationId s uid amt r none⟩
    exact StoreInv_congr hcomp.1 hcomp.2.1 hcomp.2.2.1 hcomp.2.2.2
      ⟨inv0, inv1, inv2, inv3⟩
  | adminSetStatus id st =>
    cases h : mapGet s.articles id with
    | none =>
      rw [MemStorage.updateArticleStatus_none h st]
      exact ⟨inv0, inv1, inv2, inv3⟩
    | some a =>
      rw [MemStorage.updateArticleStatus_some h st]
      obtain ⟨haid, hlt⟩ := inv1 (id, a) (mapGet_mem h)
      refine ⟨mapSet_keys_nodup inv0, ?_, fun p hp => inv2 p hp, ?_⟩
      · intro p hp
        rcases mem_mapSet hp with rfl | hmem
        · exact ⟨haid, hlt⟩
        · exact inv1 p hmem
      · intro p hp
        rcases mem_mapSet hp with rfl | hmem
        · exact inv3 (id, a) (mapGet_mem h)
        · exact inv3 p hmem
  | verifyTruth id =>
    rcases verifyTruth_articles_char s id with heq | ⟨a, a', ha, hid', hcnt', heq⟩
    · exact StoreInv_congr heq (verifyTruth_verifications s id)
        (verifyTruth_articleId s id) (verifyTruth_verificationId s id)
        ⟨inv0, inv1, inv2, inv3⟩
    · obtain ⟨haid, hlt⟩ := inv1 (id, a) (mapGet_mem ha)
      have hverifs := verifyTruth_verifications s id
      refine ⟨?_, ?_, ?_, ?_⟩
      · rw [heq]
        exact mapSet_keys_nodup inv0
      · intro p hp
        rw [heq] at hp
        rcases mem_mapSet hp with rfl | hmem
        · refine ⟨?_, ?_⟩
          · show a'.id = id
            rw [hid', haid]
          · rw [verifyTruth_articleId]
            exact hlt
        · obtain ⟨h1, h2⟩ := inv1 p hmem
          refine ⟨h1, ?_⟩
          rw [verifyTruth_articleId]
          exact h2
      · intro p hp
        rw [hverifs] at hp
        obtain ⟨h1, h2⟩ := inv2 p hp
        refine ⟨?_, ?_⟩
        · rw [verifyTruth_verificationId]
          exact h1
        · rw [verifyTruth_articleId]
          exact h2
      · intro p hp
        rw [heq] at hp
        rcases mem_mapSet hp with rfl | hmem
        · have h3 := inv3 (id, a) (mapGet_mem ha)
          show a'.verificationCount = _
          rw [hcnt', h3]
          unfold MemStorage.getVerificationsForArticle
          rw [hverifs]
        · have h3 := inv3 p hmem
          unfold MemStorage.getVerificationsForArticle at h3 ⊢
          rw [hverifs]
          exact h3
  | createVerification iv =>
    cases h : mapGet s.articles iv.articleId with
    | none =>
      rw [show apiCreateVerification s iv = (none, s) from by
        unfold apiCreateVerification MemStorage.getArticle
        rw [h]]
      exact ⟨inv0, inv1, inv2, inv3⟩
    | some a =>
      rw [show (apiCreateVerification s iv).2 =
          (MemStorage.createVerification s iv).2 from by
        unfold apiCreateVerification MemStorage.getArticle
        rw [h]]
      obtain ⟨haid, hlt⟩ := inv1 (iv.articleId, a) (mapGet_mem h)
      have hfresh1 : mapGet s.verifications s.verificationId = none :=
        mapGet_eq_none_of_keys_lt (fun p hp => (inv2 p hp).1) le_rfl
      obtain ⟨st, hart⟩ := createVerification_articles_some h haid
      have hverifs := createVerification_verifications s iv
      have hvid := createVerification_verificationId s iv
      have haId := createVerification_articleId s iv
      refine ⟨?_, ?_, ?_, ?_⟩
      · rw [hart]
        exact mapSet_keys_nodup inv0
      · intro p hp
        rw [hart] at hp
        rcases mem_mapSet hp with rfl | hmem
        · refine ⟨haid, ?_⟩
          rw [haId]
          exact hlt
        · obtain ⟨h1, h2⟩ := inv1 p hmem
          refine ⟨h1, ?_⟩
          rw [haId]
          exact h2
      · intro p hp
        rw [hverifs] at hp
        rcases mem_mapSet hp with rfl | hmem
        · refine ⟨?_, ?_⟩
          · rw [hvid]
            omega
          · show iv.articleId < _
            rw [haId]
            exact hlt
        · obtain ⟨h1, h2⟩ := inv2 p hmem
          refine ⟨?_, ?_⟩
          · rw [hvid]
            omega
          · rw [haId]
            exact h2
      · intro p hp
        rw [hart] at hp
        rcases mem_mapSet_nodup inv0 hp with rfl | ⟨hmem, hne⟩
        · have h3 := inv3 (iv.articleId, a) (mapGet_mem h)
          show a.verificationCount + 1 = _
          unfold MemStorage.getVerificationsForArticle
          rw [hverifs]
          rw [getVerificationsForArticle_insert hfresh1 _ iv.articleId rfl]
          rw [List.length_append, h3]
          rfl
        · have h3 := inv3 p hmem
          unfold MemStorage.getVerificationsForArticle
          rw [hverifs]
          rw [getVerificationsForArticle_insert_ne hfresh1 _ p.1
            (fun hq => hne hq.symm)]
          exact h3

theorem StoreInv_reachable {s : MemStorage} (h : Reachable s) : StoreInv s := by
  induction h with
  | refl => exact StoreInv_init
  | tail _ hstep ih => exact StoreInv_step hstep ih

/-- C8: in every store state reachable through the engine's operations,
each article's `verificationCount` equals the number of stored
Verification records whose `articleId` is that article's key — in
particular, after N verification submissions for an article it equals N. -/
theorem verification_count_invariant (s : MemStorage) (hs : Reachable s) :
    ∀ k a, mapGet s.articles k = some a →
      a.verificationCount =
        (MemStorage.getVerificationsForArticle s k).length := by
  intro k a hk
  exact (StoreInv_reachable hs).2.2.2 (k, a) (mapGet_mem hk)

/-- Witness for C8: the store reached by registering two users, submitting
an article, and recording one verification carries `verificationCount = 1`
for article 1, equal to its one stored record. -/
theorem verification_count_invariant_witness :
    ({ id := 1, authorId := 1, status := "pending", isWhistleblower := false
       verificationCount := 1, truthScore := none } : Article).verificationCount =
      (MemStorage.getVerificationsForArticle
        ((apiCreateVerification demoStore
          { articleId := 1, userId := 2, status := "verified" }).2) 1).length :=
  verification_count_invariant _
    (Relation.ReflTransGen.tail
      (Relation.ReflTransGen.tail
        (Relation.ReflTransGen.tail
          (Relation.ReflTransGen.tail Relation.ReflTransGen.refl
            (Step.createUser MemStorage.init
              { role := "journalist", ensAddress := none }))
          (Step.createUser _ { role := "publisher", ensAddress := none }))
        (Step.createArticle _
          { authorId := 1, status := "pending", isWhistleblower := false }))
      (Step.createVerification _
        { articleId := 1, userId := 2, status := "verified" }))
    1 _ (by decide)

end TruthNode
